import Mathlib

/-!
Shallow embedding of the chat server core (src/types.rs, src/client.rs,
src/room.rs, src/message.rs, src/server.rs) and proofs of its
specification claims.

Modelling conventions:
* `ClientId` (a UUID in the source) is an opaque identifier; we use `Nat`,
  since the code only ever compares ids for equality and uses them as keys.
* `RoomCode` wraps a string; we model strings of the code as `List Char`.
* The three `HashMap` registries of `ChatServer` are association lists with
  `mapLookup` / `mapInsert` / `mapErase` mirroring `get` / `insert` / `remove`.
* The outbound mpsc channel of a client is pure I/O; each handler instead
  returns the ordered list of (recipient, message) notifications it sends.
* `RoomCode::generate` draws randomness from `rand`; we pass the sampled
  character stream explicitly as a function `Nat → Char`, and the unbounded
  retry loop of `handle_create_room` is given explicit fuel (`genLoop`).
-/

namespace ChatSpec

/-- Opaque client identifier (`ClientId(Uuid)` in src/types.rs). -/
abbrev ClientId := Nat

/-- Room code string (`RoomCode(String)` in src/types.rs), as a char list. -/
abbrev RoomCode := List Char

/-! ### Association-list maps, mirroring `std::collections::HashMap` usage -/

/-- `HashMap::get`: first value bound to `key`. -/
def mapLookup {α β : Type} [DecidableEq α] : List (α × β) → α → Option β
  | [], _ => none
  | (k, v) :: rest, key => if k = key then some v else mapLookup rest key

/-- `HashMap::remove`: drop every binding of `key`. -/
def mapErase {α β : Type} [DecidableEq α] : List (α × β) → α → List (α × β)
  | [], _ => []
  | (k, v) :: rest, key =>
      if k = key then mapErase rest key else (k, v) :: mapErase rest key

/-- `HashMap::insert`: bind `key` to `v`, replacing any previous binding. -/
def mapInsert {α β : Type} [DecidableEq α] (l : List (α × β)) (key : α) (v : β) :
    List (α × β) :=
  (key, v) :: mapErase l key

theorem mapLookup_erase {α β : Type} [DecidableEq α]
    (l : List (α × β)) (k k' : α) :
    mapLookup (mapErase l k) k' = if k = k' then none else mapLookup l k' := by
  induction l with
  | nil => simp [mapErase, mapLookup]
  | cons hd tl ih =>
      obtain ⟨a, b⟩ := hd
      by_cases hak : a = k
      · subst hak
        by_cases hkk : a = k'
        · subst hkk; simp [mapErase, mapLookup, ih]
        · simp [mapErase, mapLookup, hkk, ih]
      · by_cases hak' : a = k'
        · subst hak'
          have hk : ¬ k = a := fun h => hak h.symm
          simp [mapErase, mapLookup, hak, hk]
        · simp [mapErase, mapLookup, hak, hak', ih]

theorem mapLookup_insert {α β : Type} [DecidableEq α]
    (l : List (α × β)) (k : α) (v : β) (k' : α) :
    mapLookup (mapInsert l k v) k' = if k = k' then some v else mapLookup l k' := by
  by_cases h : k = k' <;> simp [mapInsert, mapLookup, h, mapLookup_erase]

theorem mapLookup_insert_self {α β : Type} [DecidableEq α]
    (l : List (α × β)) (k : α) (v : β) :
    mapLookup (mapInsert l k v) k = some v := by
  simp [mapLookup_insert]

theorem mapLookup_insert_ne {α β : Type} [DecidableEq α]
    (l : List (α × β)) (k : α) (v : β) (k' : α) (h : k ≠ k') :
    mapLookup (mapInsert l k v) k' = mapLookup l k' := by
  simp [mapLookup_insert, h]

theorem mapLookup_erase_self {α β : Type} [DecidableEq α]
    (l : List (α × β)) (k : α) :
    mapLookup (mapErase l k) k = none := by
  simp [mapLookup_erase]

theorem mapLookup_erase_ne {α β : Type} [DecidableEq α]
    (l : List (α × β)) (k k' : α) (h : k ≠ k') :
    mapLookup (mapErase l k) k' = mapLookup l k' := by
  simp [mapLookup_erase, h]

/-! ### src/types.rs -/

/-- Characters the `rand::distributions::Alphanumeric` distribution samples:
uppercase letters, lowercase letters and digits (62 symbols). -/
def alphanumericChars : List Char :=
  ['A','B','C','D','E','F','G','H','I','J','K','L','M',
   'N','O','P','Q','R','S','T','U','V','W','X','Y','Z',
   'a','b','c','d','e','f','g','h','i','j','k','l','m',
   'n','o','p','q','r','s','t','u','v','w','x','y','z',
   '0','1','2','3','4','5','6','7','8','9']

/-- The 36-symbol alphabet of stored room codes: A–Z and 0–9. -/
def codeAlphabet : List Char :=
  ['A','B','C','D','E','F','G','H','I','J','K','L','M',
   'N','O','P','Q','R','S','T','U','V','W','X','Y','Z',
   '0','1','2','3','4','5','6','7','8','9']

/-- Rust `str::to_uppercase` restricted to the char sequence. -/
def charsToUpper (l : List Char) : List Char := l.map Char.toUpper

/-- `RoomCode::generate`: take 6 characters from the sampled alphanumeric
stream, collect, and uppercase (src/types.rs lines 44–53). The random
stream is passed explicitly as `sample`. -/
def RoomCode.generate (sample : Nat → Char) : RoomCode :=
  charsToUpper ((List.range 6).map sample)

/-- `RoomCode::from_string`: canonicalize user input to uppercase
(src/types.rs lines 56–58). -/
def RoomCode.from_string (code : List Char) : RoomCode :=
  charsToUpper code

/-! ### src/client.rs -/

/-- `Client` (src/client.rs); the outbound mpsc sender is I/O and is
modelled by the notification lists the handlers return. -/
structure Client where
  id : ClientId
  username : Option String
  is_typing : Bool
deriving DecidableEq

/-- `Client::new`. -/
def Client.new (id : ClientId) : Client :=
  { id := id, username := none, is_typing := false }

/-- `Client::display_name`: the username, or `"Unknown"` when unset. -/
def Client.display_name (c : Client) : String :=
  c.username.getD "Unknown"

/-- `Client::has_username`. -/
def Client.has_username (c : Client) : Bool :=
  c.username.isSome

/-- `Client::set_username`. -/
def Client.set_username (c : Client) (username : String) : Client :=
  { c with username := some username }

/-- `Client::set_typing`. -/
def Client.set_typing (c : Client) (b : Bool) : Client :=
  { c with is_typing := b }

/-! ### src/room.rs -/

/-- `Room` (src/room.rs); `created_at : Instant` is real time and is not
consulted by any handler, so it is omitted. -/
structure Room where
  code : RoomCode
  host : ClientId
  guest : Option ClientId
deriving DecidableEq

/-- `Room::new`. -/
def Room.new (code : RoomCode) (host : ClientId) : Room :=
  { code := code, host := host, guest := none }

/-- `Room::is_full`. -/
def Room.is_full (r : Room) : Bool :=
  r.guest.isSome

/-- `Room::is_empty`. -/
def Room.isEmptyRoom (r : Room) : Bool :=
  r.guest.isNone

/-- `Room::get_partner`. -/
def Room.get_partner (r : Room) (client_id : ClientId) : Option ClientId :=
  if r.host = client_id then r.guest
  else if r.guest = some client_id then some r.host
  else none

/-- `Room::contains`. -/
def Room.containsClient (r : Room) (client_id : ClientId) : Bool :=
  r.host = client_id ∨ r.guest = some client_id

/-- `Room::remove_client`: the mutated room plus the "should delete" flag
the source returns (src/room.rs lines 68–83). -/
def Room.remove_client (r : Room) (client_id : ClientId) : Room × Bool :=
  if r.host = client_id then
    match r.guest with
    | some g => ({ r with host := g, guest := none }, false)
    | none => (r, true)
  else if r.guest = some client_id then
    ({ r with guest := none }, false)
  else
    (r, false)

/-- `Room::add_guest` (src/room.rs lines 88–95). -/
def Room.add_guest (r : Room) (guest_id : ClientId) : Room × Bool :=
  if r.is_full then (r, false)
  else ({ r with guest := some guest_id }, true)

/-- `Room::participant_count`. -/
def Room.participant_count (r : Room) : Nat :=
  if r.guest.isSome then 2 else 1

/-! ### src/message.rs and src/error.rs -/

/-- `ErrorCode` (src/message.rs). -/
inductive ErrorCode where
  | UsernameRequired
  | RoomNotFound
  | RoomFull
  | NotInRoom
  | AlreadyInRoom
  | InvalidMessage
deriving DecidableEq

/-- `ServerMessage` (src/message.rs). `from` is a Lean keyword, hence
the field name `from_` on the `Chat` variant. -/
inductive ServerMessage where
  | Connected (client_id : String)
  | UsernameSet (username : String)
  | RoomCreated (room_code : RoomCode)
  | RoomJoined (room_code : RoomCode) (partner : Option String)
  | PartnerJoined (username : String)
  | Chat (from_ : String) (content : String)
  | PartnerTyping
  | PartnerStopTyping
  | PartnerLeft
  | Error (code : ErrorCode) (message : List Char)
deriving DecidableEq

/-- The ASCII single-quote character used by the `RoomNotFound` message. -/
def squote : Char := Char.ofNat 39

/-- Business subset of `AppError` (src/error.rs) reachable from server.rs. -/
inductive AppError where
  | RoomNotFound (code : RoomCode)
  | RoomFull
  | UsernameRequired
  | NotInRoom
  | AlreadyInRoom
deriving DecidableEq

/-- `impl From<AppError> for ServerMessage` (src/message.rs lines 84–112). -/
def AppError.toMessage : AppError → ServerMessage
  | .UsernameRequired =>
      .Error .UsernameRequired "Username is required".data
  | .RoomNotFound code =>
      .Error .RoomNotFound
        ("Room ".data ++ [squote] ++ code ++ [squote] ++ " not found".data)
  | .RoomFull => .Error .RoomFull "Room is full".data
  | .NotInRoom => .Error .NotInRoom "You are not in a room".data
  | .AlreadyInRoom => .Error .AlreadyInRoom "You are already in a room".data

/-- One notification: recipient session and the message sent to it. -/
abbrev Event := ClientId × ServerMessage

/-! ### src/server.rs: the `ChatServer` actor state and handlers

Each handler returns the successor state together with the ordered list of
notifications it attempts to deliver (delivery failure to a closed channel
is swallowed by the source and does not affect state, so it is invisible
here). -/

/-- The `ChatServer` registries (src/server.rs lines 66–75); the command
receiver channel is the I/O boundary and is not part of the state. -/
structure ChatServer where
  clients : List (ClientId × Client)
  rooms : List (RoomCode × Room)
  client_rooms : List (ClientId × RoomCode)
deriving DecidableEq

/-- `ChatServer::new` with empty registries. -/
def ChatServer.empty : ChatServer :=
  { clients := [], rooms := [], client_rooms := [] }

/-- `handle_connect` (src/server.rs lines 135–144). -/
def handle_connect (s : ChatServer) (client_id : ClientId) :
    ChatServer × List Event :=
  ({ s with clients := mapInsert s.clients client_id (Client.new client_id) }, [])

/-- `remove_client_from_room` (src/server.rs lines 406–428). -/
def remove_client_from_room (s : ChatServer) (client_id : ClientId)
    (room_code : RoomCode) : ChatServer × List Event :=
  match mapLookup s.rooms room_code with
  | none => (s, [])
  | some room =>
      let partner_id := room.get_partner client_id
      let res := room.remove_client client_id
      let s' :=
        if res.2 then { s with rooms := mapErase s.rooms room_code }
        else { s with rooms := mapInsert s.rooms room_code res.1 }
      match partner_id with
      | some pid =>
          match mapLookup s'.clients pid with
          | some _ => (s', [(pid, ServerMessage.PartnerLeft)])
          | none => (s', [])
      | none => (s', [])

/-- `handle_disconnect` (src/server.rs lines 147–163). -/
def handle_disconnect (s : ChatServer) (client_id : ClientId) :
    ChatServer × List Event :=
  match mapLookup s.client_rooms client_id with
  | some room_code =>
      let s1 := { s with client_rooms := mapErase s.client_rooms client_id }
      let res := remove_client_from_room s1 client_id room_code
      ({ res.1 with clients := mapErase res.1.clients client_id }, res.2)
  | none =>
      ({ s with clients := mapErase s.clients client_id }, [])

/-- `handle_set_username` (src/server.rs lines 166–179). -/
def handle_set_username (s : ChatServer) (client_id : ClientId)
    (username : String) : ChatServer × List Event :=
  match mapLookup s.clients client_id with
  | none => (s, [])
  | some client =>
      ({ s with clients :=
          mapInsert s.clients client_id (client.set_username username) },
       [(client_id, ServerMessage.UsernameSet username)])

/-- The `loop { let code = RoomCode::generate(); ... }` retry loop of
`handle_create_room` (src/server.rs lines 200–205): the first candidate of
the stream `codes` not already a key of `rooms`, trying `fuel` candidates.
The source loop is unbounded; `fuel` truncates it for the embedding, and
`none` stands for the loop still running. -/
def genLoop (rooms : List (RoomCode × Room)) (codes : Nat → RoomCode)
    (fuel : Nat) : Option RoomCode :=
  ((List.range fuel).map codes).find? (fun c => (mapLookup rooms c).isNone)

/-- `handle_create_room` (src/server.rs lines 182–219), with the stream of
generated candidate codes passed explicitly. If the retry loop has not
found a fresh code within `fuel` candidates the state is returned
unchanged (the source would still be looping). -/
def handle_create_room (s : ChatServer) (client_id : ClientId)
    (codes : Nat → RoomCode) (fuel : Nat) : ChatServer × List Event :=
  match mapLookup s.clients client_id with
  | none => (s, [])
  | some client =>
      if ¬ client.has_username then
        (s, [(client_id, AppError.UsernameRequired.toMessage)])
      else if (mapLookup s.client_rooms client_id).isSome then
        (s, [(client_id, AppError.AlreadyInRoom.toMessage)])
      else
        match genLoop s.rooms codes fuel with
        | none => (s, [])
        | some room_code =>
            let room := Room.new room_code client_id
            ({ s with
                rooms := mapInsert s.rooms room_code room,
                client_rooms := mapInsert s.client_rooms client_id room_code },
             [(client_id, ServerMessage.RoomCreated room_code)])

/-- `handle_join_room` (src/server.rs lines 222–285). -/
def handle_join_room (s : ChatServer) (client_id : ClientId)
    (room_code : List Char) : ChatServer × List Event :=
  match mapLookup s.clients client_id with
  | none => (s, [])
  | some client =>
      if ¬ client.has_username then
        (s, [(client_id, AppError.UsernameRequired.toMessage)])
      else if (mapLookup s.client_rooms client_id).isSome then
        (s, [(client_id, AppError.AlreadyInRoom.toMessage)])
      else
        let code := RoomCode.from_string room_code
        match mapLookup s.rooms code with
        | none => (s, [(client_id, (AppError.RoomNotFound code).toMessage)])
        | some room =>
            if room.is_full then
              (s, [(client_id, AppError.RoomFull.toMessage)])
            else
              let host_id := room.host
              let room' := (room.add_guest client_id).1
              let s' := { s with
                  rooms := mapInsert s.rooms code room',
                  client_rooms := mapInsert s.client_rooms client_id code }
              let host_name := (mapLookup s.clients host_id).bind Client.username
              let joinEv : Event :=
                (client_id, ServerMessage.RoomJoined code host_name)
              match mapLookup s.clients host_id with
              | some _ =>
                  let guest_name := client.username.getD ""
                  (s', [joinEv, (host_id, ServerMessage.PartnerJoined guest_name)])
              | none => (s', [joinEv])

/-- `handle_chat` (src/server.rs lines 288–329). -/
def handle_chat (s : ChatServer) (client_id : ClientId) (content : String) :
    ChatServer × List Event :=
  match mapLookup s.clients client_id with
  | none => (s, [])
  | some client =>
      match mapLookup s.client_rooms client_id with
      | none => (s, [(client_id, AppError.NotInRoom.toMessage)])
      | some room_code =>
          let sender_name := client.display_name
          let was_typing := client.is_typing
          let clients1 := mapInsert s.clients client_id (client.set_typing false)
          let s1 := { s with clients := clients1 }
          match mapLookup s1.rooms room_code with
          | none => (s1, [])
          | some room =>
              match room.get_partner client_id with
              | none => (s1, [])
              | some partner_id =>
                  match mapLookup s1.clients partner_id with
                  | none => (s1, [])
                  | some _ =>
                      if was_typing then
                        (s1, [(partner_id, ServerMessage.PartnerStopTyping),
                              (partner_id, ServerMessage.Chat sender_name content)])
                      else
                        (s1, [(partner_id, ServerMessage.Chat sender_name content)])

/-- `get_partner` helper of the actor (src/server.rs lines 431–433). -/
def ChatServer.get_partner (s : ChatServer) (client_id : ClientId)
    (room_code : RoomCode) : Option ClientId :=
  (mapLookup s.rooms room_code).bind (fun r => r.get_partner client_id)

/-- `handle_typing` (src/server.rs lines 332–358). -/
def handle_typing (s : ChatServer) (client_id : ClientId) :
    ChatServer × List Event :=
  match mapLookup s.clients client_id with
  | none => (s, [])
  | some client =>
      match mapLookup s.client_rooms client_id with
      | none => (s, [(client_id, AppError.NotInRoom.toMessage)])
      | some room_code =>
          if client.is_typing then (s, [])
          else
            let clients1 := mapInsert s.clients client_id (client.set_typing true)
            let s1 := { s with clients := clients1 }
            match s1.get_partner client_id room_code with
            | none => (s1, [])
            | some partner_id =>
                match mapLookup s1.clients partner_id with
                | none => (s1, [])
                | some _ => (s1, [(partner_id, ServerMessage.PartnerTyping)])

/-- `handle_stop_typing` (src/server.rs lines 361–386). -/
def handle_stop_typing (s : ChatServer) (client_id : ClientId) :
    ChatServer × List Event :=
  match mapLookup s.clients client_id with
  | none => (s, [])
  | some client =>
      match mapLookup s.client_rooms client_id with
      | none => (s, [])
      | some room_code =>
          if ¬ client.is_typing then (s, [])
          else
            let clients1 := mapInsert s.clients client_id (client.set_typing false)
            let s1 := { s with clients := clients1 }
            match s1.get_partner client_id room_code with
            | none => (s1, [])
            | some partner_id =>
                match mapLookup s1.clients partner_id with
                | none => (s1, [])
                | some _ => (s1, [(partner_id, ServerMessage.PartnerStopTyping)])

/-- `handle_leave_room` (src/server.rs lines 389–403). -/
def handle_leave_room (s : ChatServer) (client_id : ClientId) :
    ChatServer × List Event :=
  match mapLookup s.clients client_id with
  | none => (s, [])
  | some _ =>
      match mapLookup s.client_rooms client_id with
      | none => (s, [(client_id, AppError.NotInRoom.toMessage)])
      | some room_code =>
          let s1 := { s with client_rooms := mapErase s.client_rooms client_id }
          remove_client_from_room s1 client_id room_code

/-- `ServerCommand` (src/server.rs lines 19–60). `Connect` drops the mpsc
sender (I/O); `CreateRoom` carries the candidate-code stream and the fuel
of its retry loop so that command processing stays a function. -/
inductive ServerCommand where
  | Connect (client_id : ClientId)
  | Disconnect (client_id : ClientId)
  | SetUsername (client_id : ClientId) (username : String)
  | CreateRoom (client_id : ClientId) (codes : Nat → RoomCode) (fuel : Nat)
  | JoinRoom (client_id : ClientId) (room_code : List Char)
  | Chat (client_id : ClientId) (content : String)
  | Typing (client_id : ClientId)
  | StopTyping (client_id : ClientId)
  | LeaveRoom (client_id : ClientId)

/-- `handle_command` (src/server.rs lines 102–132). -/
def handle_command (s : ChatServer) : ServerCommand → ChatServer × List Event
  | .Connect client_id => handle_connect s client_id
  | .Disconnect client_id => handle_disconnect s client_id
  | .SetUsername client_id username => handle_set_username s client_id username
  | .CreateRoom client_id codes fuel => handle_create_room s client_id codes fuel
  | .JoinRoom client_id room_code => handle_join_room s client_id room_code
  | .Chat client_id content => handle_chat s client_id content
  | .Typing client_id => handle_typing s client_id
  | .StopTyping client_id => handle_stop_typing s client_id
  | .LeaveRoom client_id => handle_leave_room s client_id

/-- The actor event loop (src/server.rs `run`): fold a command list over the
state, discarding the emitted notifications. -/
def runCommands : ChatServer → List ServerCommand → ChatServer
  | s, [] => s
  | s, c :: cs => runCommands (handle_command s c).1 cs

/-! ### Registry invariants -/

/-- Session `cid` occupies one of the two slots of `room`. -/
def memRoom (cid : ClientId) (room : Room) : Prop :=
  room.host = cid ∨ room.guest = some cid

/-- Mutual consistency of the three registries: a membership entry points at
an existing room that the session occupies; every occupant of a registered
room has the matching membership entry; the guest slot never repeats the
host; and every session with a membership entry is a registered client. -/
def Inv (s : ChatServer) : Prop :=
  (∀ cid rc, mapLookup s.client_rooms cid = some rc →
      ∃ room, mapLookup s.rooms rc = some room ∧ memRoom cid room)
  ∧ (∀ rc room, mapLookup s.rooms rc = some room →
      mapLookup s.client_rooms room.host = some rc
      ∧ (∀ g, room.guest = some g → mapLookup s.client_rooms g = some rc)
      ∧ room.guest ≠ some room.host)
  ∧ (∀ cid rc, mapLookup s.client_rooms cid = some rc →
      (mapLookup s.clients cid).isSome = true)

theorem Inv_empty : Inv ChatServer.empty := by
  refine ⟨?_, ?_, ?_⟩ <;> intro cid rc h <;> simp [ChatServer.empty, mapLookup] at h

/-! ### Characterization of the departure path (`remove_client_from_room`) -/

theorem remove_no_room (s : ChatServer) (cid : ClientId) (rc : RoomCode)
    (hr : mapLookup s.rooms rc = none) :
    remove_client_from_room s cid rc = (s, []) := by
  simp [remove_client_from_room, hr]

/-- Departing host with a guest present: the guest is promoted, the guest
slot cleared, the room survives, and the guest is notified when reachable. -/
theorem remove_host_with_guest (s : ChatServer) (cid : ClientId)
    (rc : RoomCode) (room : Room) (g : ClientId)
    (hr : mapLookup s.rooms rc = some room)
    (hhost : room.host = cid) (hg : room.guest = some g) :
    remove_client_from_room s cid rc =
      ({ s with rooms := mapInsert s.rooms rc { room with host := g, guest := none } },
       match mapLookup s.clients g with
       | some _ => [(g, ServerMessage.PartnerLeft)]
       | none => []) := by
  cases hcl : mapLookup s.clients g <;>
    simp [remove_client_from_room, hr, Room.get_partner, Room.remove_client,
      hhost, hg, hcl]

/-- Departing host with no guest: the room is deleted and nobody notified. -/
theorem remove_host_alone (s : ChatServer) (cid : ClientId)
    (rc : RoomCode) (room : Room)
    (hr : mapLookup s.rooms rc = some room)
    (hhost : room.host = cid) (hg : room.guest = none) :
    remove_client_from_room s cid rc =
      ({ s with rooms := mapErase s.rooms rc }, []) := by
  simp [remove_client_from_room, hr, Room.get_partner, Room.remove_client,
    hhost, hg]

/-- Departing guest: the guest slot is cleared, the room survives with the
host, and the host is notified when reachable. -/
theorem remove_guest (s : ChatServer) (cid : ClientId)
    (rc : RoomCode) (room : Room)
    (hr : mapLookup s.rooms rc = some room)
    (hhost : room.host ≠ cid) (hg : room.guest = some cid) :
    remove_client_from_room s cid rc =
      ({ s with rooms := mapInsert s.rooms rc { room with guest := none } },
       match mapLookup s.clients room.host with
       | some _ => [(room.host, ServerMessage.PartnerLeft)]
       | none => []) := by
  cases hcl : mapLookup s.clients room.host <;>
    simp [remove_client_from_room, hr, Room.get_partner, Room.remove_client,
      hhost, hg, hcl]

/-- `remove_client_from_room` touches only the `rooms` registry. -/
theorem remove_preserves_client_rooms (s : ChatServer) (cid : ClientId)
    (rc : RoomCode) :
    (remove_client_from_room s cid rc).1.client_rooms = s.client_rooms := by
  rcases hres : mapLookup s.rooms rc with _ | room
  · simp [remove_client_from_room, hres]
  · simp only [remove_client_from_room, hres]
    split <;> (try split) <;> (try split) <;> rfl

/-- `remove_client_from_room` leaves the `clients` registry unchanged. -/
theorem remove_preserves_clients (s : ChatServer) (cid : ClientId)
    (rc : RoomCode) :
    (remove_client_from_room s cid rc).1.clients = s.clients := by
  rcases hres : mapLookup s.rooms rc with _ | room
  · simp [remove_client_from_room, hres]
  · simp only [remove_client_from_room, hres]
    split <;> (try split) <;> (try split) <;> rfl

/-! ### Invariant preservation -/

theorem mapLookup_insert_isSome {α β : Type} [DecidableEq α]
    (l : List (α × β)) (k : α) (v : β) (k' : α)
    (h : (mapLookup l k').isSome = true) :
    (mapLookup (mapInsert l k v) k').isSome = true := by
  rw [mapLookup_insert]
  by_cases hk : k = k' <;> simp [hk, h]

/-- Replacing one client record leaves the registry invariant intact. -/
theorem Inv_set_client (s : ChatServer) (h : Inv s) (k : ClientId) (c : Client) :
    Inv { s with clients := mapInsert s.clients k c } := by
  obtain ⟨h1, h2, h3⟩ := h
  exact ⟨h1, h2, fun cid rc hm => mapLookup_insert_isSome _ _ _ _ (h3 cid rc hm)⟩

/-- Erasing a client that is in no room leaves the invariant intact. -/
theorem Inv_clients_erase (t : ChatServer) (h : Inv t) (cid : ClientId)
    (hm : mapLookup t.client_rooms cid = none) :
    Inv { t with clients := mapErase t.clients cid } := by
  obtain ⟨h1, h2, h3⟩ := h
  refine ⟨h1, h2, ?_⟩
  intro cid' rc' hm'
  have hne : cid ≠ cid' := by
    rintro rfl
    rw [hm] at hm'
    cases hm'
  rw [mapLookup_erase_ne _ _ _ hne]
  exact h3 cid' rc' hm'

theorem Inv_handle_connect (s : ChatServer) (cid : ClientId) (h : Inv s) :
    Inv (handle_connect s cid).1 :=
  Inv_set_client s h cid (Client.new cid)

theorem Inv_handle_set_username (s : ChatServer) (cid : ClientId)
    (username : String) (h : Inv s) :
    Inv (handle_set_username s cid username).1 := by
  unfold handle_set_username
  split
  · exact h
  · exact Inv_set_client s h cid _

theorem Inv_handle_chat (s : ChatServer) (cid : ClientId) (content : String)
    (h : Inv s) : Inv (handle_chat s cid content).1 := by
  unfold handle_chat
  split
  · exact h
  · split
    · exact h
    · dsimp only
      split
      · exact Inv_set_client s h cid _
      · split
        · exact Inv_set_client s h cid _
        · split
          · exact Inv_set_client s h cid _
          · split
            · exact Inv_set_client s h cid _
            · exact Inv_set_client s h cid _

theorem Inv_handle_typing (s : ChatServer) (cid : ClientId) (h : Inv s) :
    Inv (handle_typing s cid).1 := by
  unfold handle_typing
  split
  · exact h
  · split
    · exact h
    · split
      · exact h
      · dsimp only
        split
        · exact Inv_set_client s h cid _
        · split
          · exact Inv_set_client s h cid _
          · exact Inv_set_client s h cid _

theorem Inv_handle_stop_typing (s : ChatServer) (cid : ClientId) (h : Inv s) :
    Inv (handle_stop_typing s cid).1 := by
  unfold handle_stop_typing
  split
  · exact h
  · split
    · exact h
    · split
      · exact h
      · dsimp only
        split
        · exact Inv_set_client s h cid _
        · split
          · exact Inv_set_client s h cid _
          · exact Inv_set_client s h cid _

/-- The `genLoop` retry loop only ever returns a code that is absent from
the live registry. -/
theorem genLoop_fresh (rooms : List (RoomCode × Room)) (codes : Nat → RoomCode)
    (fuel : Nat) (rc : RoomCode) (h : genLoop rooms codes fuel = some rc) :
    mapLookup rooms rc = none := by
  unfold genLoop at h
  have := List.find?_some h
  simpa using this

theorem Inv_handle_create (s : ChatServer) (cid : ClientId)
    (codes : Nat → RoomCode) (fuel : Nat) (h : Inv s) :
    Inv (handle_create_room s cid codes fuel).1 := by
  obtain ⟨h1, h2, h3⟩ := h
  unfold handle_create_room
  split
  · exact ⟨h1, h2, h3⟩
  next client hc =>
    split
    · exact ⟨h1, h2, h3⟩
    · split
      · exact ⟨h1, h2, h3⟩
      next hmem =>
        split
        · exact ⟨h1, h2, h3⟩
        next rc hgen =>
          have hfresh : mapLookup s.rooms rc = none := genLoop_fresh _ _ _ _ hgen
          have hnotin : mapLookup s.client_rooms cid = none := by
            rcases hx : mapLookup s.client_rooms cid with _ | v
            · rfl
            · rw [hx] at hmem; simp at hmem
          refine ⟨?_, ?_, ?_⟩
          · intro cid' rc' hm'
            rw [mapLookup_insert] at hm'
            by_cases hk : cid = cid'
            · rw [if_pos hk] at hm'
              obtain rfl : rc = rc' := by injection hm'
              refine ⟨Room.new rc cid, ?_, Or.inl ?_⟩
              · simp [mapLookup_insert]
              · simp [Room.new, hk]
            · rw [if_neg hk] at hm'
              obtain ⟨room, hroom, hmm⟩ := h1 cid' rc' hm'
              have hne : rc ≠ rc' := by
                rintro rfl
                rw [hfresh] at hroom
                cases hroom
              exact ⟨room, by rwa [mapLookup_insert_ne _ _ _ _ hne], hmm⟩
          · intro rc' room' hr'
            rw [mapLookup_insert] at hr'
            by_cases hk : rc = rc'
            · rw [if_pos hk] at hr'
              obtain rfl : Room.new rc cid = room' := by injection hr'
              subst hk
              refine ⟨by simp [Room.new, mapLookup_insert], ?_, ?_⟩
              · intro g hg
                simp [Room.new] at hg
              · simp [Room.new]
            · rw [if_neg hk] at hr'
              obtain ⟨ha, hb, hcne⟩ := h2 rc' room' hr'
              have hhostne : cid ≠ room'.host := by
                rintro rfl
                rw [hnotin] at ha
                cases ha
              refine ⟨by rwa [mapLookup_insert_ne _ _ _ _ hhostne], ?_, hcne⟩
              intro g hg
              have hgne : cid ≠ g := by
                rintro rfl
                have hbb := hb cid hg
                rw [hnotin] at hbb
                cases hbb
              rw [mapLookup_insert_ne _ _ _ _ hgne]
              exact hb g hg
          · intro cid' rc' hm'
            rw [mapLookup_insert] at hm'
            by_cases hk : cid = cid'
            · subst hk
              simp [hc]
            · rw [if_neg hk] at hm'
              exact h3 cid' rc' hm'

theorem Inv_handle_join (s : ChatServer) (cid : ClientId) (raw : List Char)
    (h : Inv s) : Inv (handle_join_room s cid raw).1 := by
  obtain ⟨h1, h2, h3⟩ := h
  unfold handle_join_room
  split
  · exact ⟨h1, h2, h3⟩
  next client hc =>
    split
    · exact ⟨h1, h2, h3⟩
    · split
      · exact ⟨h1, h2, h3⟩
      next hmem =>
        dsimp only
        split
        · exact ⟨h1, h2, h3⟩
        next room hroom =>
          split
          · exact ⟨h1, h2, h3⟩
          next hfull =>
            have hguest : room.guest = none := by
              rcases hgx : room.guest with _ | g
              · rfl
              · exact absurd (by simp [Room.is_full, hgx]) hfull
            have hnotin : mapLookup s.client_rooms cid = none := by
              rcases hx : mapLookup s.client_rooms cid with _ | v
              · rfl
              · rw [hx] at hmem; simp at hmem
            have hadd : (room.add_guest cid).1 = { room with guest := some cid } := by
              simp [Room.add_guest, Room.is_full, hguest]
            have hhostne : cid ≠ room.host := by
              rintro rfl
              obtain ⟨ha, _, _⟩ := h2 _ room hroom
              rw [hnotin] at ha
              cases ha
            have hInvNew : Inv { s with
                rooms := mapInsert s.rooms (RoomCode.from_string raw)
                  { room with guest := some cid },
                client_rooms := mapInsert s.client_rooms cid
                  (RoomCode.from_string raw) } := by
              obtain ⟨hhostm, hguestm, hneq⟩ := h2 _ room hroom
              refine ⟨?_, ?_, ?_⟩
              · intro cid' rc' hm'
                rw [mapLookup_insert] at hm'
                by_cases hk : cid = cid'
                · rw [if_pos hk] at hm'
                  obtain rfl : RoomCode.from_string raw = rc' := by injection hm'
                  subst hk
                  exact ⟨{ room with guest := some cid },
                    mapLookup_insert_self _ _ _, Or.inr rfl⟩
                · rw [if_neg hk] at hm'
                  obtain ⟨room0, hr0, hmm0⟩ := h1 cid' rc' hm'
                  by_cases hrk : RoomCode.from_string raw = rc'
                  · subst hrk
                    obtain rfl : room0 = room := by
                      rw [hroom] at hr0; injection hr0; simp [*]
                    rcases hmm0 with hh | hgg
                    · exact ⟨{ room0 with guest := some cid },
                        mapLookup_insert_self _ _ _, Or.inl hh⟩
                    · rw [hguest] at hgg; cases hgg
                  · exact ⟨room0, by rwa [mapLookup_insert_ne _ _ _ _ hrk], hmm0⟩
              · intro rc' room' hr'
                rw [mapLookup_insert] at hr'
                by_cases hrk : RoomCode.from_string raw = rc'
                · rw [if_pos hrk] at hr'
                  obtain rfl : ({ room with guest := some cid } : Room) = room' := by
                    injection hr'
                  subst hrk
                  refine ⟨?_, ?_, ?_⟩
                  · rw [mapLookup_insert_ne _ _ _ _ (fun hx => hhostne hx)]
                    exact hhostm
                  · intro g hg
                    obtain rfl : g = cid := by simpa using hg.symm
                    exact mapLookup_insert_self _ _ _
                  · simp only []
                    intro hx
                    exact hhostne (by injection hx)
                · rw [if_neg hrk] at hr'
                  obtain ⟨ha', hb', hcne'⟩ := h2 rc' room' hr'
                  have hhne : cid ≠ room'.host := by
                    rintro rfl
                    rw [hnotin] at ha'
                    cases ha'
                  refine ⟨by rwa [mapLookup_insert_ne _ _ _ _ hhne], ?_, hcne'⟩
                  intro g hg
                  have hgne : cid ≠ g := by
                    rintro rfl
                    have hbb := hb' cid hg
                    rw [hnotin] at hbb
                    cases hbb
                  rw [mapLookup_insert_ne _ _ _ _ hgne]
                  exact hb' g hg
              · intro cid' rc' hm'
                rw [mapLookup_insert] at hm'
                by_cases hk : cid = cid'
                · subst hk
                  simp [hc]
                · rw [if_neg hk] at hm'
                  exact h3 cid' rc' hm'
            rw [hadd]
            split
            · exact hInvNew
            · exact hInvNew

/-- Departure cleanup after the membership entry is erased keeps the
registries consistent. -/
theorem Inv_remove (s : ChatServer) (cid : ClientId) (rc : RoomCode)
    (h : Inv s) (hm : mapLookup s.client_rooms cid = some rc) :
    Inv (remove_client_from_room
      { s with client_rooms := mapErase s.client_rooms cid } cid rc).1 := by
  obtain ⟨h1, h2, h3⟩ := h
  obtain ⟨room, hr, hmemr⟩ := h1 cid rc hm
  obtain ⟨hhostm, hguestm, hneq⟩ := h2 rc room hr
  have hother : ∀ cid' rc', cid ≠ cid' →
      mapLookup (mapErase s.client_rooms cid) cid' = some rc' →
      mapLookup s.client_rooms cid' = some rc' := by
    intro cid' rc' hne hm'
    rwa [mapLookup_erase_ne _ _ _ hne] at hm'
  have hmemcid : ∀ rc' room', rc ≠ rc' → mapLookup s.rooms rc' = some room' →
      room'.host ≠ cid ∧ ∀ g, room'.guest = some g → g ≠ cid := by
    intro rc' room' hrk hr'
    obtain ⟨ha', hb', _⟩ := h2 rc' room' hr'
    constructor
    · rintro rfl
      rw [hm] at ha'
      exact hrk (by injection ha')
    · intro g hg
      rintro rfl
      have hbb := hb' g hg
      rw [hm] at hbb
      exact hrk (by injection hbb)
  by_cases hhost : room.host = cid
  · rcases hg : room.guest with _ | g
    · rw [remove_host_alone
        { s with client_rooms := mapErase s.client_rooms cid } cid rc room hr hhost hg]
      refine ⟨?_, ?_, ?_⟩
      · intro cid' rc' hm'
        have hne : cid ≠ cid' := by
          rintro rfl
          rw [mapLookup_erase_self] at hm'
          cases hm'
        have hold := hother cid' rc' hne hm'
        obtain ⟨room0, hr0, hmm0⟩ := h1 cid' rc' hold
        have hrk : rc ≠ rc' := by
          rintro rfl
          obtain rfl : room0 = room := by
            rw [hr] at hr0; injection hr0; simp [*]
          rcases hmm0 with hh | hgg
          · exact hne (hhost.symm.trans hh)
          · rw [hg] at hgg; cases hgg
        exact ⟨room0, by rwa [mapLookup_erase_ne _ _ _ hrk], hmm0⟩
      · intro rc' room' hr'
        have hrk : rc ≠ rc' := by
          rintro rfl
          rw [mapLookup_erase_self] at hr'
          cases hr'
        rw [mapLookup_erase_ne _ _ _ hrk] at hr'
        obtain ⟨ha', hb', hcne'⟩ := h2 rc' room' hr'
        obtain ⟨hh, hgc⟩ := hmemcid rc' room' hrk hr'
        refine ⟨?_, ?_, hcne'⟩
        · rw [mapLookup_erase_ne _ _ _ (fun hx => hh hx.symm)]
          exact ha'
        · intro g hg
          rw [mapLookup_erase_ne _ _ _ (fun hx => hgc g hg hx.symm)]
          exact hb' g hg
      · intro cid' rc' hm'
        have hne : cid ≠ cid' := by
          rintro rfl
          rw [mapLookup_erase_self] at hm'
          cases hm'
        exact h3 cid' rc' (hother cid' rc' hne hm')
    · have hgne : g ≠ cid := by
        rintro rfl
        exact hneq (hg.trans (by rw [hhost]))
      rw [remove_host_with_guest
        { s with client_rooms := mapErase s.client_rooms cid } cid rc room g hr hhost hg]
      have hInvT : Inv { s with
          client_rooms := mapErase s.client_rooms cid,
          rooms := mapInsert s.rooms rc { room with host := g, guest := none } } := by
        refine ⟨?_, ?_, ?_⟩
        · intro cid' rc' hm'
          have hne : cid ≠ cid' := by
            rintro rfl
            rw [mapLookup_erase_self] at hm'
            cases hm'
          have hold := hother cid' rc' hne hm'
          obtain ⟨room0, hr0, hmm0⟩ := h1 cid' rc' hold
          by_cases hrk : rc = rc'
          · subst hrk
            obtain rfl : room0 = room := by
              rw [hr] at hr0; injection hr0; simp [*]
            have hgcid' : g = cid' := by
              rcases hmm0 with hh | hgg
              · exact absurd (hhost.symm.trans hh) (fun hx => hne hx)
              · rw [hg] at hgg; injection hgg
            exact ⟨{ room0 with host := g, guest := none },
              mapLookup_insert_self _ _ _, Or.inl hgcid'⟩
          · exact ⟨room0, by rwa [mapLookup_insert_ne _ _ _ _ hrk], hmm0⟩
        · intro rc' room' hr'
          rw [mapLookup_insert] at hr'
          by_cases hrk : rc = rc'
          · rw [if_pos hrk] at hr'
            obtain rfl : ({ room with host := g, guest := none } : Room) = room' := by
              injection hr'
            subst hrk
            refine ⟨?_, ?_, ?_⟩
            · rw [mapLookup_erase_ne _ _ _ (fun hx => hgne hx.symm)]
              exact hguestm g hg
            · intro g' hg'
              cases hg'
            · simp only []
              intro hx
              cases hx
          · rw [if_neg hrk] at hr'
            obtain ⟨ha', hb', hcne'⟩ := h2 rc' room' hr'
            obtain ⟨hh, hgc⟩ := hmemcid rc' room' hrk hr'
            refine ⟨?_, ?_, hcne'⟩
            · rw [mapLookup_erase_ne _ _ _ (fun hx => hh hx.symm)]
              exact ha'
            · intro g' hg'
              rw [mapLookup_erase_ne _ _ _ (fun hx => hgc g' hg' hx.symm)]
              exact hb' g' hg'
        · intro cid' rc' hm'
          have hne : cid ≠ cid' := by
            rintro rfl
            rw [mapLookup_erase_self] at hm'
            cases hm'
          exact h3 cid' rc' (hother cid' rc' hne hm')
      rcases hcl : mapLookup s.clients g with _ | c <;> simpa [hcl] using hInvT
  · have hgc : room.guest = some cid := hmemr.resolve_left hhost
    rw [remove_guest
      { s with client_rooms := mapErase s.client_rooms cid } cid rc room hr hhost hgc]
    have hInvT : Inv { s with
        client_rooms := mapErase s.client_rooms cid,
        rooms := mapInsert s.rooms rc { room with guest := none } } := by
      refine ⟨?_, ?_, ?_⟩
      · intro cid' rc' hm'
        have hne : cid ≠ cid' := by
          rintro rfl
          rw [mapLookup_erase_self] at hm'
          cases hm'
        have hold := hother cid' rc' hne hm'
        obtain ⟨room0, hr0, hmm0⟩ := h1 cid' rc' hold
        by_cases hrk : rc = rc'
        · subst hrk
          obtain rfl : room0 = room := by
            rw [hr] at hr0; injection hr0; simp [*]
          have hh : room0.host = cid' := by
            rcases hmm0 with hh | hgg
            · exact hh
            · rw [hgc] at hgg
              exact absurd (by injection hgg) (fun hx => hne hx)
          exact ⟨{ room0 with guest := none },
            mapLookup_insert_self _ _ _, Or.inl hh⟩
        · exact ⟨room0, by rwa [mapLookup_insert_ne _ _ _ _ hrk], hmm0⟩
      · intro rc' room' hr'
        rw [mapLookup_insert] at hr'
        by_cases hrk : rc = rc'
        · rw [if_pos hrk] at hr'
          obtain rfl : ({ room with guest := none } : Room) = room' := by
            injection hr'
          subst hrk
          refine ⟨?_, ?_, ?_⟩
          · rw [mapLookup_erase_ne _ _ _ (fun hx => hhost hx.symm)]
            exact hhostm
          · intro g' hg'
            cases hg'
          · simp only []
            intro hx
            cases hx
        · rw [if_neg hrk] at hr'
          obtain ⟨ha', hb', hcne'⟩ := h2 rc' room' hr'
          obtain ⟨hh, hgcx⟩ := hmemcid rc' room' hrk hr'
          refine ⟨?_, ?_, hcne'⟩
          · rw [mapLookup_erase_ne _ _ _ (fun hx => hh hx.symm)]
            exact ha'
          · intro g' hg'
            rw [mapLookup_erase_ne _ _ _ (fun hx => hgcx g' hg' hx.symm)]
            exact hb' g' hg'
      · intro cid' rc' hm'
        have hne : cid ≠ cid' := by
          rintro rfl
          rw [mapLookup_erase_self] at hm'
          cases hm'
        exact h3 cid' rc' (hother cid' rc' hne hm')
    rcases hcl : mapLookup s.clients room.host with _ | c <;> simpa [hcl] using hInvT

theorem Inv_handle_disconnect (s : ChatServer) (cid : ClientId) (h : Inv s) :
    Inv (handle_disconnect s cid).1 := by
  unfold handle_disconnect
  split
  next rc hm =>
    dsimp only
    apply Inv_clients_erase _ (Inv_remove s cid rc h hm) cid
    rw [remove_preserves_client_rooms]
    exact mapLookup_erase_self _ _
  next hm =>
    exact Inv_clients_erase s h cid hm

theorem Inv_handle_leave (s : ChatServer) (cid : ClientId) (h : Inv s) :
    Inv (handle_leave_room s cid).1 := by
  unfold handle_leave_room
  split
  · exact h
  · split
    · exact h
    next rc hm =>
      dsimp only
      exact Inv_remove s cid rc h hm

theorem Inv_step (s : ChatServer) (c : ServerCommand) (h : Inv s) :
    Inv (handle_command s c).1 := by
  cases c with
  | Connect cid => exact Inv_handle_connect s cid h
  | Disconnect cid => exact Inv_handle_disconnect s cid h
  | SetUsername cid u => exact Inv_handle_set_username s cid u h
  | CreateRoom cid codes fuel => exact Inv_handle_create s cid codes fuel h
  | JoinRoom cid raw => exact Inv_handle_join s cid raw h
  | Chat cid content => exact Inv_handle_chat s cid content h
  | Typing cid => exact Inv_handle_typing s cid h
  | StopTyping cid => exact Inv_handle_stop_typing s cid h
  | LeaveRoom cid => exact Inv_handle_leave s cid h

theorem Inv_run (cmds : List ServerCommand) :
    ∀ s, Inv s → Inv (runCommands s cmds) := by
  induction cmds with
  | nil => intro s h; exact h
  | cons c cs ih => intro s h; exact ih _ (Inv_step s c h)

/-- Every state reached from the empty initial state satisfies `Inv`. -/
theorem Inv_reachable (cmds : List ServerCommand) :
    Inv (runCommands ChatServer.empty cmds) :=
  Inv_run cmds _ Inv_empty

/-! ### The display-name invariant

The transport layer (src/handler.rs line 37) mints a fresh random
`ClientId::new()` for every connection, so a `Connect` command never
reuses the id of a currently registered session.  `freshCmd`/`freshRun`
state exactly this environment property of command sequences. -/

/-- A command respects session-id freshness: `Connect` carries an id that
is not currently registered. All other commands are unconstrained. -/
def freshCmd (s : ChatServer) : ServerCommand → Prop
  | .Connect cid => mapLookup s.clients cid = none
  | _ => True

/-- Every `Connect` of the sequence is fresh at the state it executes in. -/
def freshRun : ChatServer → List ServerCommand → Prop
  | _, [] => True
  | s, c :: cs => freshCmd s c ∧ freshRun (handle_command s c).1 cs

/-- Every session occupying a room has its username set. -/
def NamesInv (s : ChatServer) : Prop :=
  ∀ cid rc, mapLookup s.client_rooms cid = some rc →
    ∃ c, mapLookup s.clients cid = some c ∧ c.username.isSome = true

theorem NamesInv_empty : NamesInv ChatServer.empty := by
  intro cid rc h
  simp [ChatServer.empty, mapLookup] at h

theorem NamesInv_set_client (s : ChatServer) (h : NamesInv s) (k : ClientId)
    (c : Client)
    (hk : ∀ rc, mapLookup s.client_rooms k = some rc → c.username.isSome = true) :
    NamesInv { s with clients := mapInsert s.clients k c } := by
  intro cid rc hm
  by_cases hkc : k = cid
  · subst hkc
    exact ⟨c, mapLookup_insert_self _ _ _, hk rc hm⟩
  · obtain ⟨c0, hc0, hu⟩ := h cid rc hm
    exact ⟨c0, by rwa [mapLookup_insert_ne _ _ _ _ hkc], hu⟩

theorem NamesInv_add_member (s : ChatServer) (h : NamesInv s) (k : ClientId)
    (rc : RoomCode) (rooms' : List (RoomCode × Room)) (c : Client)
    (hc : mapLookup s.clients k = some c) (hu : c.username.isSome = true) :
    NamesInv { s with rooms := rooms',
                      client_rooms := mapInsert s.client_rooms k rc } := by
  intro cid rc' hm
  rw [mapLookup_insert] at hm
  by_cases hk : k = cid
  · subst hk
    exact ⟨c, hc, hu⟩
  · rw [if_neg hk] at hm
    exact h cid rc' hm

theorem NamesInv_handle_connect (s : ChatServer) (cid : ClientId)
    (hInv : Inv s) (hI : NamesInv s)
    (hfresh : mapLookup s.clients cid = none) :
    NamesInv (handle_connect s cid).1 := by
  apply NamesInv_set_client s hI cid _
  intro rc hmx
  have hx := hInv.2.2 cid rc hmx
  rw [hfresh] at hx
  simp at hx

theorem NamesInv_handle_set_username (s : ChatServer) (cid : ClientId)
    (u : String) (hI : NamesInv s) :
    NamesInv (handle_set_username s cid u).1 := by
  unfold handle_set_username
  split
  · exact hI
  · apply NamesInv_set_client s hI cid _
    intro rc hmx
    simp [Client.set_username]

theorem NamesInv_handle_chat (s : ChatServer) (cid : ClientId)
    (content : String) (hI : NamesInv s) :
    NamesInv (handle_chat s cid content).1 := by
  unfold handle_chat
  split
  · exact hI
  next client hc =>
    split
    · exact hI
    next rc0 hm0 =>
      have hset : NamesInv
          { s with clients := mapInsert s.clients cid (client.set_typing false) } := by
        apply NamesInv_set_client s hI cid _
        intro rc hmx
        obtain ⟨c0, hc0, hu⟩ := hI cid rc hmx
        rw [hc] at hc0
        obtain rfl : client = c0 := by injection hc0
        simpa [Client.set_typing] using hu
      dsimp only
      split
      · exact hset
      · split
        · exact hset
        · split
          · exact hset
          · split <;> exact hset

theorem NamesInv_handle_typing (s : ChatServer) (cid : ClientId)
    (hI : NamesInv s) : NamesInv (handle_typing s cid).1 := by
  unfold handle_typing
  split
  · exact hI
  next client hc =>
    split
    · exact hI
    next rc0 hm0 =>
      split
      · exact hI
      · have hset : NamesInv
            { s with clients := mapInsert s.clients cid (client.set_typing true) } := by
          apply NamesInv_set_client s hI cid _
          intro rc hmx
          obtain ⟨c0, hc0, hu⟩ := hI cid rc hmx
          rw [hc] at hc0
          obtain rfl : client = c0 := by injection hc0
          simpa [Client.set_typing] using hu
        dsimp only
        split
        · exact hset
        · split <;> exact hset

theorem NamesInv_handle_stop_typing (s : ChatServer) (cid : ClientId)
    (hI : NamesInv s) : NamesInv (handle_stop_typing s cid).1 := by
  unfold handle_stop_typing
  split
  · exact hI
  next client hc =>
    split
    · exact hI
    next rc0 hm0 =>
      split
      · exact hI
      · have hset : NamesInv
            { s with clients := mapInsert s.clients cid (client.set_typing false) } := by
          apply NamesInv_set_client s hI cid _
          intro rc hmx
          obtain ⟨c0, hc0, hu⟩ := hI cid rc hmx
          rw [hc] at hc0
          obtain rfl : client = c0 := by injection hc0
          simpa [Client.set_typing] using hu
        dsimp only
        split
        · exact hset
        · split <;> exact hset

theorem NamesInv_handle_create (s : ChatServer) (cid : ClientId)
    (codes : Nat → RoomCode) (fuel : Nat) (hI : NamesInv s) :
    NamesInv (handle_create_room s cid codes fuel).1 := by
  unfold handle_create_room
  split
  · exact hI
  next client hc =>
    split
    · exact hI
    next hname =>
      split
      · exact hI
      · split
        · exact hI
        next rc hgen =>
          apply NamesInv_add_member s hI cid rc _ client hc
          simpa [Client.has_username, Option.isSome_iff_ne_none] using hname

theorem NamesInv_handle_join (s : ChatServer) (cid : ClientId)
    (raw : List Char) (hI : NamesInv s) :
    NamesInv (handle_join_room s cid raw).1 := by
  unfold handle_join_room
  split
  · exact hI
  next client hc =>
    split
    · exact hI
    next hname =>
      split
      · exact hI
      · dsimp only
        split
        · exact hI
        next room hroom =>
          split
          · exact hI
          next hfull =>
            have hnew := NamesInv_add_member s hI cid (RoomCode.from_string raw)
              (mapInsert s.rooms (RoomCode.from_string raw) (room.add_guest cid).1)
              client hc
              (by simpa [Client.has_username, Option.isSome_iff_ne_none] using hname)
            split
            · exact hnew
            · exact hnew

theorem NamesInv_handle_disconnect (s : ChatServer) (cid : ClientId)
    (hI : NamesInv s) : NamesInv (handle_disconnect s cid).1 := by
  unfold handle_disconnect
  split
  next rc hm =>
    dsimp only
    intro cid' rc' hm'
    have hm'' : mapLookup (mapErase s.client_rooms cid) cid' = some rc' := by
      have hcr := remove_preserves_client_rooms
        { s with client_rooms := mapErase s.client_rooms cid } cid rc
      dsimp only at hcr
      rw [← hcr]
      exact hm'
    have hne : cid ≠ cid' := by
      rintro rfl
      rw [mapLookup_erase_self] at hm''
      cases hm''
    obtain ⟨c0, hc0, hu⟩ :=
      hI cid' rc' (by rwa [mapLookup_erase_ne _ _ _ hne] at hm'')
    refine ⟨c0, ?_, hu⟩
    show mapLookup (mapErase (remove_client_from_room
      { s with client_rooms := mapErase s.client_rooms cid } cid rc).1.clients cid)
      cid' = some c0
    rw [remove_preserves_clients, mapLookup_erase_ne _ _ _ hne]
    exact hc0
  next hm =>
    intro cid' rc' hm'
    have hne : cid ≠ cid' := by
      rintro rfl
      rw [hm] at hm'
      cases hm'
    obtain ⟨c0, hc0, hu⟩ := hI cid' rc' hm'
    exact ⟨c0, by rwa [mapLookup_erase_ne _ _ _ hne], hu⟩

theorem NamesInv_handle_leave (s : ChatServer) (cid : ClientId)
    (hI : NamesInv s) : NamesInv (handle_leave_room s cid).1 := by
  unfold handle_leave_room
  split
  · exact hI
  · split
    · exact hI
    next rc hm =>
      dsimp only
      intro cid' rc' hm'
      have hm'' : mapLookup (mapErase s.client_rooms cid) cid' = some rc' := by
        have hcr := remove_preserves_client_rooms
          { s with client_rooms := mapErase s.client_rooms cid } cid rc
        dsimp only at hcr
        rw [← hcr]
        exact hm'
      have hne : cid ≠ cid' := by
        rintro rfl
        rw [mapLookup_erase_self] at hm''
        cases hm''
      obtain ⟨c0, hc0, hu⟩ :=
        hI cid' rc' (by rwa [mapLookup_erase_ne _ _ _ hne] at hm'')
      refine ⟨c0, ?_, hu⟩
      show mapLookup (remove_client_from_room
        { s with client_rooms := mapErase s.client_rooms cid } cid rc).1.clients
        cid' = some c0
      rw [remove_preserves_clients]
      exact hc0

theorem NamesInv_step (s : ChatServer) (c : ServerCommand)
    (hInv : Inv s) (hI : NamesInv s) (hf : freshCmd s c) :
    NamesInv (handle_command s c).1 := by
  cases c with
  | Connect cid => exact NamesInv_handle_connect s cid hInv hI hf
  | Disconnect cid => exact NamesInv_handle_disconnect s cid hI
  | SetUsername cid u => exact NamesInv_handle_set_username s cid u hI
  | CreateRoom cid codes fuel => exact NamesInv_handle_create s cid codes fuel hI
  | JoinRoom cid raw => exact NamesInv_handle_join s cid raw hI
  | Chat cid content => exact NamesInv_handle_chat s cid content hI
  | Typing cid => exact NamesInv_handle_typing s cid hI
  | StopTyping cid => exact NamesInv_handle_stop_typing s cid hI
  | LeaveRoom cid => exact NamesInv_handle_leave s cid hI

theorem NamesInv_run (cmds : List ServerCommand) :
    ∀ s, Inv s → NamesInv s → freshRun s cmds →
      NamesInv (runCommands s cmds) := by
  induction cmds with
  | nil => intro s _ hI _; exact hI
  | cons c cs ih =>
      intro s hInv hI hf
      exact ih _ (Inv_step s c hInv) (NamesInv_step s c hInv hI hf.1) hf.2

/-- Every state reached from the empty state by a sequence whose `Connect`
ids are fresh satisfies the display-name invariant. -/
theorem NamesInv_reachable (cmds : List ServerCommand)
    (hf : freshRun ChatServer.empty cmds) :
    NamesInv (runCommands ChatServer.empty cmds) :=
  NamesInv_run cmds _ Inv_empty NamesInv_empty hf

/-! ### Branch characterizations of the handlers -/

theorem create_no_username (s : ChatServer) (cid : ClientId)
    (codes : Nat → RoomCode) (fuel : Nat) (client : Client)
    (hc : mapLookup s.clients cid = some client)
    (hu : client.has_username = false) :
    handle_create_room s cid codes fuel =
      (s, [(cid, AppError.UsernameRequired.toMessage)]) := by
  simp [handle_create_room, hc, hu]

theorem create_already_in_room (s : ChatServer) (cid : ClientId)
    (codes : Nat → RoomCode) (fuel : Nat) (client : Client) (rc : RoomCode)
    (hc : mapLookup s.clients cid = some client)
    (hu : client.has_username = true)
    (hm : mapLookup s.client_rooms cid = some rc) :
    handle_create_room s cid codes fuel =
      (s, [(cid, AppError.AlreadyInRoom.toMessage)]) := by
  simp [handle_create_room, hc, hu, hm]

theorem create_success (s : ChatServer) (cid : ClientId)
    (codes : Nat → RoomCode) (fuel : Nat) (client : Client) (rc : RoomCode)
    (hc : mapLookup s.clients cid = some client)
    (hu : client.has_username = true)
    (hm : mapLookup s.client_rooms cid = none)
    (hgen : genLoop s.rooms codes fuel = some rc) :
    handle_create_room s cid codes fuel =
      ({ s with rooms := mapInsert s.rooms rc (Room.new rc cid),
                client_rooms := mapInsert s.client_rooms cid rc },
       [(cid, ServerMessage.RoomCreated rc)]) := by
  simp [handle_create_room, hc, hu, hm, hgen]

theorem join_no_username (s : ChatServer) (cid : ClientId)
    (raw : List Char) (client : Client)
    (hc : mapLookup s.clients cid = some client)
    (hu : client.has_username = false) :
    handle_join_room s cid raw =
      (s, [(cid, AppError.UsernameRequired.toMessage)]) := by
  simp [handle_join_room, hc, hu]

theorem join_already_in_room (s : ChatServer) (cid : ClientId)
    (raw : List Char) (client : Client) (rc : RoomCode)
    (hc : mapLookup s.clients cid = some client)
    (hu : client.has_username = true)
    (hm : mapLookup s.client_rooms cid = some rc) :
    handle_join_room s cid raw =
      (s, [(cid, AppError.AlreadyInRoom.toMessage)]) := by
  simp [handle_join_room, hc, hu, hm]

theorem join_not_found (s : ChatServer) (cid : ClientId)
    (raw : List Char) (client : Client)
    (hc : mapLookup s.clients cid = some client)
    (hu : client.has_username = true)
    (hm : mapLookup s.client_rooms cid = none)
    (hroom : mapLookup s.rooms (RoomCode.from_string raw) = none) :
    handle_join_room s cid raw =
      (s, [(cid, (AppError.RoomNotFound (RoomCode.from_string raw)).toMessage)]) := by
  simp [handle_join_room, hc, hu, hm, hroom]

theorem join_full (s : ChatServer) (cid : ClientId)
    (raw : List Char) (client : Client) (room : Room)
    (hc : mapLookup s.clients cid = some client)
    (hu : client.has_username = true)
    (hm : mapLookup s.client_rooms cid = none)
    (hroom : mapLookup s.rooms (RoomCode.from_string raw) = some room)
    (hfull : room.is_full = true) :
    handle_join_room s cid raw =
      (s, [(cid, AppError.RoomFull.toMessage)]) := by
  simp [handle_join_room, hc, hu, hm, hroom, hfull]

theorem join_success (s : ChatServer) (cid : ClientId)
    (raw : List Char) (client : Client) (room : Room)
    (hc : mapLookup s.clients cid = some client)
    (hu : client.has_username = true)
    (hm : mapLookup s.client_rooms cid = none)
    (hroom : mapLookup s.rooms (RoomCode.from_string raw) = some room)
    (hfull : room.is_full = false) :
    handle_join_room s cid raw =
      ({ s with
          rooms := mapInsert s.rooms (RoomCode.from_string raw)
            { room with guest := some cid },
          client_rooms := mapInsert s.client_rooms cid (RoomCode.from_string raw) },
       (cid, ServerMessage.RoomJoined (RoomCode.from_string raw)
          ((mapLookup s.clients room.host).bind Client.username)) ::
        (match mapLookup s.clients room.host with
         | some _ => [(room.host, ServerMessage.PartnerJoined (client.username.getD ""))]
         | none => [])) := by
  have hadd : (room.add_guest cid).1 = { room with guest := some cid } := by
    simp [Room.add_guest, hfull]
  rcases hh : mapLookup s.clients room.host with _ | hostc <;>
    simp [handle_join_room, hc, hu, hm, hroom, hfull, hadd, hh]

theorem chat_not_in_room (s : ChatServer) (cid : ClientId) (content : String)
    (client : Client)
    (hc : mapLookup s.clients cid = some client)
    (hm : mapLookup s.client_rooms cid = none) :
    handle_chat s cid content = (s, [(cid, AppError.NotInRoom.toMessage)]) := by
  simp [handle_chat, hc, hm]

theorem chat_no_partner (s : ChatServer) (cid : ClientId) (content : String)
    (client : Client) (rc : RoomCode) (room : Room)
    (hc : mapLookup s.clients cid = some client)
    (hm : mapLookup s.client_rooms cid = some rc)
    (hroom : mapLookup s.rooms rc = some room)
    (hp : room.get_partner cid = none) :
    handle_chat s cid content =
      ({ s with clients := mapInsert s.clients cid (client.set_typing false) },
       []) := by
  simp [handle_chat, hc, hm, hroom, hp]

theorem chat_with_partner (s : ChatServer) (cid : ClientId) (content : String)
    (client : Client) (rc : RoomCode) (room : Room) (p : ClientId) (pc : Client)
    (hc : mapLookup s.clients cid = some client)
    (hm : mapLookup s.client_rooms cid = some rc)
    (hroom : mapLookup s.rooms rc = some room)
    (hp : room.get_partner cid = some p)
    (hne : cid ≠ p)
    (hpc : mapLookup s.clients p = some pc) :
    handle_chat s cid content =
      ({ s with clients := mapInsert s.clients cid (client.set_typing false) },
       if client.is_typing then
         [(p, ServerMessage.PartnerStopTyping),
          (p, ServerMessage.Chat client.display_name content)]
       else
         [(p, ServerMessage.Chat client.display_name content)]) := by
  have hlp : mapLookup (mapInsert s.clients cid (client.set_typing false)) p
      = some pc := by
    rwa [mapLookup_insert_ne _ _ _ _ hne]
  rcases ht : client.is_typing <;>
    simp [handle_chat, hc, hm, hroom, hp, hlp, ht]

theorem chat_room_missing (s : ChatServer) (cid : ClientId) (content : String)
    (client : Client) (rc : RoomCode)
    (hc : mapLookup s.clients cid = some client)
    (hm : mapLookup s.client_rooms cid = some rc)
    (hroom : mapLookup s.rooms rc = none) :
    handle_chat s cid content =
      ({ s with clients := mapInsert s.clients cid (client.set_typing false) },
       []) := by
  simp [handle_chat, hc, hm, hroom]

theorem chat_partner_lookup (s : ChatServer) (cid : ClientId) (content : String)
    (client : Client) (rc : RoomCode) (room : Room) (p : ClientId)
    (hc : mapLookup s.clients cid = some client)
    (hm : mapLookup s.client_rooms cid = some rc)
    (hroom : mapLookup s.rooms rc = some room)
    (hp : room.get_partner cid = some p) :
    handle_chat s cid content =
      ({ s with clients := mapInsert s.clients cid (client.set_typing false) },
       match mapLookup (mapInsert s.clients cid (client.set_typing false)) p with
       | none => []
       | some _ =>
           if client.is_typing then
             [(p, ServerMessage.PartnerStopTyping),
              (p, ServerMessage.Chat client.display_name content)]
           else [(p, ServerMessage.Chat client.display_name content)]) := by
  rcases hlp : mapLookup (mapInsert s.clients cid (client.set_typing false)) p
      with _ | pc <;>
    rcases ht : client.is_typing <;>
      simp [handle_chat, hc, hm, hroom, hp, hlp, ht]

theorem typing_not_in_room (s : ChatServer) (cid : ClientId) (client : Client)
    (hc : mapLookup s.clients cid = some client)
    (hm : mapLookup s.client_rooms cid = none) :
    handle_typing s cid = (s, [(cid, AppError.NotInRoom.toMessage)]) := by
  simp [handle_typing, hc, hm]

theorem typing_idempotent (s : ChatServer) (cid : ClientId) (client : Client)
    (rc : RoomCode)
    (hc : mapLookup s.clients cid = some client)
    (hm : mapLookup s.client_rooms cid = some rc)
    (ht : client.is_typing = true) :
    handle_typing s cid = (s, []) := by
  simp [handle_typing, hc, hm, ht]

theorem typing_transition (s : ChatServer) (cid : ClientId) (client : Client)
    (rc : RoomCode)
    (hc : mapLookup s.clients cid = some client)
    (hm : mapLookup s.client_rooms cid = some rc)
    (ht : client.is_typing = false) :
    handle_typing s cid =
      ({ s with clients := mapInsert s.clients cid (client.set_typing true) },
       match (mapLookup s.rooms rc).bind (fun r => r.get_partner cid) with
       | none => []
       | some p =>
           match mapLookup (mapInsert s.clients cid (client.set_typing true)) p with
           | some _ => [(p, ServerMessage.PartnerTyping)]
           | none => []) := by
  rcases hp : (mapLookup s.rooms rc).bind (fun r => r.get_partner cid) with _ | p
  · simp [handle_typing, hc, hm, ht, ChatServer.get_partner, hp]
  · rcases hlp : mapLookup (mapInsert s.clients cid (client.set_typing true)) p
      with _ | pc <;>
      simp [handle_typing, hc, hm, ht, ChatServer.get_partner, hp, hlp]

theorem stop_typing_not_in_room (s : ChatServer) (cid : ClientId)
    (client : Client)
    (hc : mapLookup s.clients cid = some client)
    (hm : mapLookup s.client_rooms cid = none) :
    handle_stop_typing s cid = (s, []) := by
  simp [handle_stop_typing, hc, hm]

theorem stop_typing_idempotent (s : ChatServer) (cid : ClientId)
    (client : Client) (rc : RoomCode)
    (hc : mapLookup s.clients cid = some client)
    (hm : mapLookup s.client_rooms cid = some rc)
    (ht : client.is_typing = false) :
    handle_stop_typing s cid = (s, []) := by
  simp [handle_stop_typing, hc, hm, ht]

theorem stop_typing_transition (s : ChatServer) (cid : ClientId)
    (client : Client) (rc : RoomCode)
    (hc : mapLookup s.clients cid = some client)
    (hm : mapLookup s.client_rooms cid = some rc)
    (ht : client.is_typing = true) :
    handle_stop_typing s cid =
      ({ s with clients := mapInsert s.clients cid (client.set_typing false) },
       match (mapLookup s.rooms rc).bind (fun r => r.get_partner cid) with
       | none => []
       | some p =>
           match mapLookup (mapInsert s.clients cid (client.set_typing false)) p with
           | some _ => [(p, ServerMessage.PartnerStopTyping)]
           | none => []) := by
  rcases hp : (mapLookup s.rooms rc).bind (fun r => r.get_partner cid) with _ | p
  · simp [handle_stop_typing, hc, hm, ht, ChatServer.get_partner, hp]
  · rcases hlp : mapLookup (mapInsert s.clients cid (client.set_typing false)) p
      with _ | pc <;>
      simp [handle_stop_typing, hc, hm, ht, ChatServer.get_partner, hp, hlp]

theorem leave_not_in_room (s : ChatServer) (cid : ClientId) (client : Client)
    (hc : mapLookup s.clients cid = some client)
    (hm : mapLookup s.client_rooms cid = none) :
    handle_leave_room s cid = (s, [(cid, AppError.NotInRoom.toMessage)]) := by
  simp [handle_leave_room, hc, hm]

theorem leave_in_room (s : ChatServer) (cid : ClientId) (client : Client)
    (rc : RoomCode)
    (hc : mapLookup s.clients cid = some client)
    (hm : mapLookup s.client_rooms cid = some rc) :
    handle_leave_room s cid =
      remove_client_from_room
        { s with client_rooms := mapErase s.client_rooms cid } cid rc := by
  simp [handle_leave_room, hc, hm]

theorem disconnect_in_room (s : ChatServer) (cid : ClientId) (rc : RoomCode)
    (hm : mapLookup s.client_rooms cid = some rc) :
    handle_disconnect s cid =
      (let res := remove_client_from_room
        { s with client_rooms := mapErase s.client_rooms cid } cid rc
       ({ res.1 with clients := mapErase res.1.clients cid }, res.2)) := by
  simp [handle_disconnect, hm]

/-! ### Concrete example run used by the witnesses -/

/-- The room code `"AAAAAA"`. -/
def cA : RoomCode := ['A','A','A','A','A','A']

/-- A concrete scenario: Alice connects, names herself, creates room
`"AAAAAA"`; Bob connects, names himself, joins with the lowercase code. -/
def demoCmds : List ServerCommand :=
  [ServerCommand.Connect 0,
   ServerCommand.SetUsername 0 "Alice",
   ServerCommand.CreateRoom 0 (fun _ => cA) 1,
   ServerCommand.Connect 1,
   ServerCommand.SetUsername 1 "Bob",
   ServerCommand.JoinRoom 1 ['a','a','a','a','a','a']]

/-- The state after running `demoCmds`. -/
def demoState : ChatServer := runCommands ChatServer.empty demoCmds

/-! ### The claims -/

/-- Every alphanumeric character uppercases into the 36-symbol code
alphabet. -/
theorem toUpper_mem_codeAlphabet :
    ∀ c ∈ alphanumericChars, c.toUpper ∈ codeAlphabet := by decide

/-- C7: every room code the generator produces is exactly 6 characters
long, each drawn from the 36-symbol uppercase-alphanumeric alphabet
A–Z, 0–9, whatever the outcome of the random sampling. -/
theorem claim_C7_generated_code_wellformed (sample : Nat → Char)
    (h : ∀ i, sample i ∈ alphanumericChars) :
    (RoomCode.generate sample).length = 6 ∧
      ∀ c ∈ RoomCode.generate sample, c ∈ codeAlphabet := by
  constructor
  · simp [RoomCode.generate, charsToUpper]
  · intro c hc
    rw [RoomCode.generate, charsToUpper] at hc
    obtain ⟨a, ha, rfl⟩ := List.mem_map.mp hc
    obtain ⟨i, _, rfl⟩ := List.mem_map.mp ha
    exact toUpper_mem_codeAlphabet _ (h i)

theorem claim_C7_witness :
    (∀ i : Nat, (fun _ : Nat => 'a') i ∈ alphanumericChars) ∧
      ((RoomCode.generate (fun _ : Nat => 'a')).length = 6 ∧
        ∀ c ∈ RoomCode.generate (fun _ : Nat => 'a'), c ∈ codeAlphabet) := by
  constructor
  · intro i
    show 'a' ∈ alphanumericChars
    decide
  · exact claim_C7_generated_code_wellformed (fun _ => 'a')
      (by intro i; show 'a' ∈ alphanumericChars; decide)

/-- C9: a command whose session id is not registered in `clients` leaves
the whole state unchanged and emits no notification at all, for every one
of CreateRoom, JoinRoom, Chat, Typing, StopTyping and LeaveRoom. -/
theorem claim_C9_unknown_session_ignored (s : ChatServer) (cid : ClientId)
    (h : mapLookup s.clients cid = none) :
    (∀ codes fuel, handle_create_room s cid codes fuel = (s, []))
    ∧ (∀ raw, handle_join_room s cid raw = (s, []))
    ∧ (∀ content, handle_chat s cid content = (s, []))
    ∧ handle_typing s cid = (s, [])
    ∧ handle_stop_typing s cid = (s, [])
    ∧ handle_leave_room s cid = (s, []) := by
  refine ⟨?_, ?_, ?_, ?_, ?_, ?_⟩ <;>
    intros <;>
    simp [handle_create_room, handle_join_room, handle_chat, handle_typing,
      handle_stop_typing, handle_leave_room, h]

theorem claim_C9_witness :
    mapLookup ChatServer.empty.clients 0 = none ∧
      ((∀ codes fuel, handle_create_room ChatServer.empty 0 codes fuel
          = (ChatServer.empty, []))
      ∧ (∀ raw, handle_join_room ChatServer.empty 0 raw = (ChatServer.empty, []))
      ∧ (∀ content, handle_chat ChatServer.empty 0 content = (ChatServer.empty, []))
      ∧ handle_typing ChatServer.empty 0 = (ChatServer.empty, [])
      ∧ handle_stop_typing ChatServer.empty 0 = (ChatServer.empty, [])
      ∧ handle_leave_room ChatServer.empty 0 = (ChatServer.empty, [])) :=
  ⟨rfl, claim_C9_unknown_session_ignored ChatServer.empty 0 rfl⟩

/-- C6: a successful CreateRoom registers and announces a code that was not
in the live registry before the command; the retry loop finds a code
whenever the stream offers one outside the registry; and no retry bound
exists: for every fuel `n` there are a registry and a stream with a fresh
code available that need more than `n` attempts. -/
theorem claim_C6_code_generation :
    (∀ (rooms : List (RoomCode × Room)) (codes : Nat → RoomCode)
        (fuel : Nat) (rc : RoomCode),
        genLoop rooms codes fuel = some rc → mapLookup rooms rc = none)
    ∧ (∀ (s : ChatServer) (cid : ClientId) (codes : Nat → RoomCode)
        (fuel : Nat) (rc : RoomCode),
        (cid, ServerMessage.RoomCreated rc) ∈ (handle_create_room s cid codes fuel).2 →
          mapLookup s.rooms rc = none ∧
          mapLookup (handle_create_room s cid codes fuel).1.rooms rc
            = some (Room.new rc cid))
    ∧ (∀ (rooms : List (RoomCode × Room)) (codes : Nat → RoomCode),
        (∃ i, mapLookup rooms (codes i) = none) →
          ∃ fuel rc, genLoop rooms codes fuel = some rc)
    ∧ (∀ n : Nat, ∃ (rooms : List (RoomCode × Room)) (codes : Nat → RoomCode),
        (∃ i, mapLookup rooms (codes i) = none) ∧ genLoop rooms codes n = none) := by
  refine ⟨genLoop_fresh, ?_, ?_, ?_⟩
  · intro s cid codes fuel rc hev
    rcases hc : mapLookup s.clients cid with _ | client
    · simp [handle_create_room, hc] at hev
    · rcases hu : client.has_username with _ | _
      · rw [create_no_username s cid codes fuel client hc hu] at hev
        simp [AppError.toMessage] at hev
      · rcases hm : mapLookup s.client_rooms cid with _ | rc0
        · rcases hgen : genLoop s.rooms codes fuel with _ | rc1
          · simp [handle_create_room, hc, hu, hm, hgen] at hev
          · rw [create_success s cid codes fuel client rc1 hc hu hm hgen] at hev
            simp at hev
            subst hev
            exact ⟨genLoop_fresh _ _ _ _ hgen, by
              rw [create_success s cid codes fuel client rc hc hu hm hgen]
              exact mapLookup_insert_self _ _ _⟩
        · rw [create_already_in_room s cid codes fuel client rc0 hc hu hm] at hev
          simp [AppError.toMessage] at hev
  · intro rooms codes ⟨i, hi⟩
    have hx : ∃ x ∈ (List.range (i + 1)).map codes,
        (mapLookup rooms x).isNone = true := by
      refine ⟨codes i, List.mem_map_of_mem codes ?_, by simp [hi]⟩
      exact List.mem_range.mpr (Nat.lt_succ_self i)
    have hs : (genLoop rooms codes (i + 1)).isSome = true := by
      rw [genLoop, List.find?_isSome]
      exact hx
    obtain ⟨rc, hrc⟩ := Option.isSome_iff_exists.mp hs
    exact ⟨i + 1, rc, hrc⟩
  · intro n
    refine ⟨[(['A'], Room.new ['A'] 0)],
      fun i => if i < n then ['A'] else ['B'], ⟨n, ?_⟩, ?_⟩
    · simp [mapLookup]
    · rw [genLoop, List.find?_eq_none]
      intro x hx
      obtain ⟨i, hi, rfl⟩ := List.mem_map.mp hx
      rw [List.mem_range] at hi
      simp [hi, mapLookup]

theorem claim_C6_witness :
    genLoop ([] : List (RoomCode × Room)) (fun _ => cA) 1 = some cA ∧
      mapLookup ([] : List (RoomCode × Room)) cA = none :=
  ⟨rfl, claim_C6_code_generation.1 [] (fun _ => cA) 1 cA rfl⟩

/-- C2: for a session departing its room via LeaveRoom or Disconnect: a
departing host with a guest promotes the guest to host, clears the guest
slot and keeps the room; a departing host without guest deletes the room;
a departing guest clears the guest slot and keeps the room with the host;
the departing session's membership entry is removed unconditionally; and
whenever a partner existed it receives exactly one PartnerLeft, whether or
not the room survived. -/
theorem claim_C2_departure (s : ChatServer) (cid : ClientId) (rc : RoomCode)
    (room : Room) (hInv : Inv s)
    (hm : mapLookup s.client_rooms cid = some rc)
    (hr : mapLookup s.rooms rc = some room) :
    ∀ t ∈ [handle_leave_room s cid, handle_disconnect s cid],
      mapLookup t.1.client_rooms cid = none
      ∧ (∀ g, room.host = cid → room.guest = some g →
          mapLookup t.1.rooms rc = some { room with host := g, guest := none }
          ∧ t.2 = [(g, ServerMessage.PartnerLeft)])
      ∧ (room.host = cid → room.guest = none →
          mapLookup t.1.rooms rc = none ∧ t.2 = [])
      ∧ (room.host ≠ cid → room.guest = some cid →
          mapLookup t.1.rooms rc = some { room with guest := none }
          ∧ t.2 = [(room.host, ServerMessage.PartnerLeft)]) := by
  obtain ⟨h1, h2, h3⟩ := hInv
  obtain ⟨client, hc⟩ := Option.isSome_iff_exists.mp (h3 cid rc hm)
  have hleave : handle_leave_room s cid =
      remove_client_from_room
        { s with client_rooms := mapErase s.client_rooms cid } cid rc :=
    leave_in_room s cid client rc hc hm
  have hcrn : mapLookup (remove_client_from_room
      { s with client_rooms := mapErase s.client_rooms cid } cid rc).1.client_rooms
      cid = none := by
    rw [remove_preserves_client_rooms]
    exact mapLookup_erase_self _ _
  have hcase1 : ∀ g, room.host = cid → room.guest = some g →
      mapLookup (remove_client_from_room
        { s with client_rooms := mapErase s.client_rooms cid } cid rc).1.rooms rc
        = some { room with host := g, guest := none }
      ∧ (remove_client_from_room
          { s with client_rooms := mapErase s.client_rooms cid } cid rc).2
        = [(g, ServerMessage.PartnerLeft)] := by
    intro g hh hg
    have hgm : mapLookup s.client_rooms g = some rc := (h2 rc room hr).2.1 g hg
    obtain ⟨gc, hgc⟩ := Option.isSome_iff_exists.mp (h3 g rc hgm)
    rw [remove_host_with_guest
      { s with client_rooms := mapErase s.client_rooms cid } cid rc room g hr hh hg]
    constructor
    · exact mapLookup_insert_self _ _ _
    · show (match mapLookup s.clients g with
        | some _ => [(g, ServerMessage.PartnerLeft)]
        | none => ([] : List Event)) = [(g, ServerMessage.PartnerLeft)]
      rw [hgc]
  have hcase2 : room.host = cid → room.guest = none →
      mapLookup (remove_client_from_room
        { s with client_rooms := mapErase s.client_rooms cid } cid rc).1.rooms rc
        = none
      ∧ (remove_client_from_room
          { s with client_rooms := mapErase s.client_rooms cid } cid rc).2 = [] := by
    intro hh hg
    rw [remove_host_alone
      { s with client_rooms := mapErase s.client_rooms cid } cid rc room hr hh hg]
    exact ⟨mapLookup_erase_self _ _, rfl⟩
  have hcase3 : room.host ≠ cid → room.guest = some cid →
      mapLookup (remove_client_from_room
        { s with client_rooms := mapErase s.client_rooms cid } cid rc).1.rooms rc
        = some { room with guest := none }
      ∧ (remove_client_from_room
          { s with client_rooms := mapErase s.client_rooms cid } cid rc).2
        = [(room.host, ServerMessage.PartnerLeft)] := by
    intro hh hg
    obtain ⟨hc2, hhc2⟩ := Option.isSome_iff_exists.mp
      (h3 room.host rc (h2 rc room hr).1)
    rw [remove_guest
      { s with client_rooms := mapErase s.client_rooms cid } cid rc room hr hh hg]
    constructor
    · exact mapLookup_insert_self _ _ _
    · show (match mapLookup s.clients room.host with
        | some _ => [(room.host, ServerMessage.PartnerLeft)]
        | none => ([] : List Event)) = [(room.host, ServerMessage.PartnerLeft)]
      rw [hhc2]
  intro t ht
  simp only [List.mem_cons, List.not_mem_nil, or_false] at ht
  rcases ht with rfl | rfl
  · rw [hleave]
    exact ⟨hcrn, hcase1, hcase2, hcase3⟩
  · rw [disconnect_in_room s cid rc hm]
    exact ⟨hcrn, hcase1, hcase2, hcase3⟩

theorem claim_C2_witness :
    mapLookup demoState.client_rooms 0 = some cA ∧
      mapLookup demoState.rooms cA
        = some { code := cA, host := 0, guest := some 1 } ∧
      (handle_leave_room demoState 0).2 = [(1, ServerMessage.PartnerLeft)] := by
  refine ⟨rfl, rfl, ?_⟩
  have h := claim_C2_departure demoState 0 cA
    { code := cA, host := 0, guest := some 1 }
    (Inv_reachable demoCmds) rfl rfl
    (handle_leave_room demoState 0) (by simp)
  exact (h.2.1 1 rfl rfl).2

/-- A partner returned by `Room::get_partner` occupies the opposite slot. -/
theorem get_partner_cases (room : Room) (cid p : ClientId)
    (hp : room.get_partner cid = some p) :
    (room.host = cid ∧ room.guest = some p)
    ∨ (room.host ≠ cid ∧ room.guest = some cid ∧ room.host = p) := by
  unfold Room.get_partner at hp
  by_cases hh : room.host = cid
  · rw [if_pos hh] at hp
    exact Or.inl ⟨hh, hp⟩
  · rw [if_neg hh] at hp
    by_cases hg : room.guest = some cid
    · rw [if_pos hg, Option.some.injEq] at hp
      exact Or.inr ⟨hh, hg, hp⟩
    · rw [if_neg hg] at hp
      cases hp

/-- In a consistent state, the partner of a session is a registered client
distinct from the session. -/
theorem partner_registered (s : ChatServer) (cid : ClientId) (rc : RoomCode)
    (room : Room) (p : ClientId) (hInv : Inv s)
    (_hm : mapLookup s.client_rooms cid = some rc)
    (hr : mapLookup s.rooms rc = some room)
    (hp : room.get_partner cid = some p) :
    cid ≠ p ∧ ∃ pc, mapLookup s.clients p = some pc := by
  obtain ⟨h1, h2, h3⟩ := hInv
  obtain ⟨hhostm, hguestm, hneq⟩ := h2 rc room hr
  rcases get_partner_cases room cid p hp with ⟨hh, hg⟩ | ⟨hh, hg, hph⟩
  · have hne : cid ≠ p := by
      rintro rfl
      exact hneq (by rw [hg, hh])
    have hpm : mapLookup s.client_rooms p = some rc := hguestm p hg
    exact ⟨hne, Option.isSome_iff_exists.mp (h3 p rc hpm)⟩
  · have hne : cid ≠ p := by
      rintro rfl
      exact hh hph
    have hpm : mapLookup s.client_rooms p = some rc := by
      rw [← hph]
      exact hhostm
    exact ⟨hne, Option.isSome_iff_exists.mp (h3 p rc hpm)⟩

/-- C4: Chat from a registered session not in a room fails with NotInRoom
and changes nothing; from a session in a room it clears the sender's
typing flag as the only state change, and: with no partner present it
emits nothing at all (silent drop), while with a partner present the
partner receives PartnerStopTyping strictly before
Chat{from: senderDisplayName, content} when the flag had been set, and
just the Chat notification otherwise. -/
theorem claim_C4_chat (s : ChatServer) (cid : ClientId) (client : Client)
    (content : String) (hInv : Inv s)
    (hc : mapLookup s.clients cid = some client) :
    (mapLookup s.client_rooms cid = none →
      handle_chat s cid content = (s, [(cid, AppError.NotInRoom.toMessage)]))
    ∧ (∀ rc room, mapLookup s.client_rooms cid = some rc →
        mapLookup s.rooms rc = some room →
        (handle_chat s cid content).1
          = { s with clients := mapInsert s.clients cid (client.set_typing false) }
        ∧ (room.get_partner cid = none → (handle_chat s cid content).2 = [])
        ∧ (∀ p, room.get_partner cid = some p →
            (handle_chat s cid content).2
              = if client.is_typing then
                  [(p, ServerMessage.PartnerStopTyping),
                   (p, ServerMessage.Chat client.display_name content)]
                else [(p, ServerMessage.Chat client.display_name content)])) := by
  constructor
  · intro hm
    exact chat_not_in_room s cid content client hc hm
  · intro rc room hm hroom
    rcases hpx : room.get_partner cid with _ | p
    · rw [chat_no_partner s cid content client rc room hc hm hroom hpx]
      refine ⟨rfl, fun _ => rfl, ?_⟩
      intro p hp
      exact Option.noConfusion hp
    · obtain ⟨hne, pc, hpc⟩ :=
        partner_registered s cid rc room p hInv hm hroom hpx
      rw [chat_with_partner s cid content client rc room p pc hc hm hroom hpx hne hpc]
      refine ⟨rfl, ?_, ?_⟩
      · intro hnone
        exact Option.noConfusion hnone
      · intro p' hp'
        obtain rfl : p = p' := by injection hp'
        rfl

theorem claim_C4_witness :
    mapLookup demoState.clients 0
        = some { id := 0, username := some "Alice", is_typing := false } ∧
      mapLookup demoState.client_rooms 0 = some cA ∧
      mapLookup demoState.rooms cA
        = some { code := cA, host := 0, guest := some 1 } ∧
      (handle_chat demoState 0 "hi").2
        = [(1, ServerMessage.Chat "Alice" "hi")] := by
  refine ⟨rfl, rfl, rfl, ?_⟩
  have h := (claim_C4_chat demoState 0
    { id := 0, username := some "Alice", is_typing := false } "hi"
    (Inv_reachable demoCmds) rfl).2 cA
    { code := cA, host := 0, guest := some 1 } rfl rfl
  exact h.2.2 1 rfl

/-- C5: for a registered session, Typing outside a room fails with
NotInRoom while StopTyping outside a room is a silent no-op; inside a
room, Typing with the flag already set and StopTyping with the flag
already clear change nothing and emit nothing; an actual transition flips
the flag as the only state change and notifies the partner, if any, with
PartnerTyping respectively PartnerStopTyping. -/
theorem claim_C5_typing (s : ChatServer) (cid : ClientId) (client : Client)
    (hInv : Inv s) (hc : mapLookup s.clients cid = some client) :
    (mapLookup s.client_rooms cid = none →
      handle_typing s cid = (s, [(cid, AppError.NotInRoom.toMessage)])
      ∧ handle_stop_typing s cid = (s, []))
    ∧ (∀ rc, mapLookup s.client_rooms cid = some rc →
        (client.is_typing = true → handle_typing s cid = (s, []))
        ∧ (client.is_typing = false → handle_stop_typing s cid = (s, []))
        ∧ (∀ room, mapLookup s.rooms rc = some room →
            (client.is_typing = false →
              handle_typing s cid
                = ({ s with clients :=
                      mapInsert s.clients cid (client.set_typing true) },
                   match room.get_partner cid with
                   | some p => [(p, ServerMessage.PartnerTyping)]
                   | none => []))
            ∧ (client.is_typing = true →
              handle_stop_typing s cid
                = ({ s with clients :=
                      mapInsert s.clients cid (client.set_typing false) },
                   match room.get_partner cid with
                   | some p => [(p, ServerMessage.PartnerStopTyping)]
                   | none => [])))) := by
  constructor
  · intro hm
    exact ⟨typing_not_in_room s cid client hc hm,
      stop_typing_not_in_room s cid client hc hm⟩
  · intro rc hm
    refine ⟨typing_idempotent s cid client rc hc hm,
      stop_typing_idempotent s cid client rc hc hm, ?_⟩
    intro room hroom
    constructor
    · intro ht
      rw [typing_transition s cid client rc hc hm ht]
      rcases hpx : room.get_partner cid with _ | p
      · simp [hroom, hpx]
      · obtain ⟨hne, pc, hpc⟩ :=
          partner_registered s cid rc room p hInv hm hroom hpx
        have hlp : mapLookup (mapInsert s.clients cid (client.set_typing true)) p
            = some pc := by
          rwa [mapLookup_insert_ne _ _ _ _ hne]
        simp [hroom, hpx, hlp]
    · intro ht
      rw [stop_typing_transition s cid client rc hc hm ht]
      rcases hpx : room.get_partner cid with _ | p
      · simp [hroom, hpx]
      · obtain ⟨hne, pc, hpc⟩ :=
          partner_registered s cid rc room p hInv hm hroom hpx
        have hlp : mapLookup (mapInsert s.clients cid (client.set_typing false)) p
            = some pc := by
          rwa [mapLookup_insert_ne _ _ _ _ hne]
        simp [hroom, hpx, hlp]

theorem claim_C5_witness :
    mapLookup demoState.clients 1
        = some { id := 1, username := some "Bob", is_typing := false } ∧
      mapLookup demoState.client_rooms 1 = some cA ∧
      mapLookup demoState.rooms cA
        = some { code := cA, host := 0, guest := some 1 } ∧
      handle_typing demoState 1
        = ({ demoState with
              clients := mapInsert demoState.clients 1
                { id := 1, username := some "Bob", is_typing := true } },
           [(0, ServerMessage.PartnerTyping)]) := by
  refine ⟨rfl, rfl, rfl, ?_⟩
  have h := ((claim_C5_typing demoState 1
    { id := 1, username := some "Bob", is_typing := false }
    (Inv_reachable demoCmds) rfl).2 cA rfl).2.2
    { code := cA, host := 0, guest := some 1 } rfl
  exact h.1 rfl

/-- C8: room-code lookup is case-insensitive: joining with any raw string
whose uppercase form is the stored code succeeds and joins that room
(for a registered, named session that is in no room, when the room is not
full); and generated codes are already canonical, so uppercasing them on
lookup is the identity. -/
theorem claim_C8_case_insensitive :
    (∀ (s : ChatServer) (cid : ClientId) (client : Client) (raw : List Char)
        (rc : RoomCode) (room : Room),
        mapLookup s.clients cid = some client →
        client.has_username = true →
        mapLookup s.client_rooms cid = none →
        charsToUpper raw = rc →
        mapLookup s.rooms rc = some room →
        room.is_full = false →
          mapLookup (handle_join_room s cid raw).1.rooms rc
              = some { room with guest := some cid }
          ∧ mapLookup (handle_join_room s cid raw).1.client_rooms cid = some rc
          ∧ ∃ rest, (handle_join_room s cid raw).2
              = (cid, ServerMessage.RoomJoined rc
                  ((mapLookup s.clients room.host).bind Client.username)) :: rest)
    ∧ (∀ sample : Nat → Char, (∀ i, sample i ∈ alphanumericChars) →
        RoomCode.from_string (RoomCode.generate sample)
          = RoomCode.generate sample) := by
  constructor
  · intro s cid client raw rc room hc hu hm hraw hroom hfull
    subst hraw
    have hroom' : mapLookup s.rooms (RoomCode.from_string raw) = some room := hroom
    rw [join_success s cid raw client room hc hu hm hroom' hfull]
    refine ⟨mapLookup_insert_self _ _ _, mapLookup_insert_self _ _ _, ?_⟩
    exact ⟨_, rfl⟩
  · intro sample h
    have hmem : ∀ c ∈ RoomCode.generate sample, c ∈ codeAlphabet := by
      intro c hc
      rw [RoomCode.generate, charsToUpper] at hc
      obtain ⟨a, ha, rfl⟩ := List.mem_map.mp hc
      obtain ⟨i, _, rfl⟩ := List.mem_map.mp ha
      exact toUpper_mem_codeAlphabet _ (h i)
    have hid : ∀ c ∈ codeAlphabet, c.toUpper = c := by decide
    have hmap : ∀ l : List Char, (∀ c ∈ l, c.toUpper = c) →
        l.map Char.toUpper = l := by
      intro l
      induction l with
      | nil => intro _; rfl
      | cons a t ih =>
          intro hl
          simp only [List.map_cons]
          rw [hl a (List.mem_cons_self a t),
            ih (fun c hc => hl c (List.mem_cons_of_mem a hc))]
    rw [RoomCode.from_string, charsToUpper]
    exact hmap _ (fun c hc => hid c (hmem c hc))

/-- C1: in every state reachable from the empty initial state, the three
registries are mutually consistent: every membership entry points at an
existing room the session occupies; every occupant of a registered room
has the matching membership entry; every room has a host and at most one
guest, hence at most two occupants and never zero; and each session
belongs to at most one room. -/
theorem claim_C1_registries_consistent (cmds : List ServerCommand) :
    (∀ cid rc,
        mapLookup (runCommands ChatServer.empty cmds).client_rooms cid = some rc →
        ∃ room, mapLookup (runCommands ChatServer.empty cmds).rooms rc = some room
          ∧ (room.host = cid ∨ room.guest = some cid))
    ∧ (∀ rc room,
        mapLookup (runCommands ChatServer.empty cmds).rooms rc = some room →
        mapLookup (runCommands ChatServer.empty cmds).client_rooms room.host = some rc
        ∧ ∀ g, room.guest = some g →
            mapLookup (runCommands ChatServer.empty cmds).client_rooms g = some rc)
    ∧ (∀ rc room,
        mapLookup (runCommands ChatServer.empty cmds).rooms rc = some room →
        (room.host :: room.guest.toList).length ≤ 2
        ∧ room.host :: room.guest.toList ≠ [])
    ∧ (∀ cid rc1 rc2 room1 room2,
        mapLookup (runCommands ChatServer.empty cmds).rooms rc1 = some room1 →
        mapLookup (runCommands ChatServer.empty cmds).rooms rc2 = some room2 →
        (room1.host = cid ∨ room1.guest = some cid) →
        (room2.host = cid ∨ room2.guest = some cid) →
        rc1 = rc2) := by
  obtain ⟨h1, h2, h3⟩ := Inv_reachable cmds
  refine ⟨h1, fun rc room hr => ⟨(h2 rc room hr).1, (h2 rc room hr).2.1⟩, ?_, ?_⟩
  · intro rc room hr
    constructor
    · rcases room.guest <;> simp
    · simp
  · intro cid rc1 rc2 room1 room2 hr1 hr2 hm1 hm2
    have e1 : mapLookup (runCommands ChatServer.empty cmds).client_rooms cid
        = some rc1 := by
      rcases hm1 with hh | hg
      · have := (h2 rc1 room1 hr1).1
        rwa [hh] at this
      · exact (h2 rc1 room1 hr1).2.1 cid hg
    have e2 : mapLookup (runCommands ChatServer.empty cmds).client_rooms cid
        = some rc2 := by
      rcases hm2 with hh | hg
      · have := (h2 rc2 room2 hr2).1
        rwa [hh] at this
      · exact (h2 rc2 room2 hr2).2.1 cid hg
    rw [e1] at e2
    injection e2

theorem claim_C1_witness :
    ∃ room, mapLookup (runCommands ChatServer.empty demoCmds).rooms cA = some room
      ∧ (room.host = 1 ∨ room.guest = some 1) :=
  (claim_C1_registries_consistent demoCmds).1 1 cA rfl

/-- C3: for a registered session, CreateRoom and JoinRoom fail with
UsernameRequired when no display name is set (this check coming first),
otherwise with AlreadyInRoom when a membership entry exists; JoinRoom then
fails with RoomNotFound when no room carries the canonicalized code and
with RoomFull when the room already has a guest; in all failure cases the
state is returned unchanged and the single error notification is addressed
to the issuing session. -/
theorem claim_C3_validation (s : ChatServer) (cid : ClientId)
    (client : Client) (hc : mapLookup s.clients cid = some client) :
    (client.username = none →
      (∀ codes fuel, handle_create_room s cid codes fuel
          = (s, [(cid, AppError.UsernameRequired.toMessage)]))
      ∧ ∀ raw, handle_join_room s cid raw
          = (s, [(cid, AppError.UsernameRequired.toMessage)]))
    ∧ (∀ rc, client.username.isSome = true →
        mapLookup s.client_rooms cid = some rc →
        (∀ codes fuel, handle_create_room s cid codes fuel
            = (s, [(cid, AppError.AlreadyInRoom.toMessage)]))
        ∧ ∀ raw, handle_join_room s cid raw
            = (s, [(cid, AppError.AlreadyInRoom.toMessage)]))
    ∧ (∀ raw, client.username.isSome = true →
        mapLookup s.client_rooms cid = none →
        mapLookup s.rooms (RoomCode.from_string raw) = none →
        handle_join_room s cid raw
          = (s, [(cid, (AppError.RoomNotFound (RoomCode.from_string raw)).toMessage)]))
    ∧ (∀ raw room, client.username.isSome = true →
        mapLookup s.client_rooms cid = none →
        mapLookup s.rooms (RoomCode.from_string raw) = some room →
        room.guest.isSome = true →
        handle_join_room s cid raw = (s, [(cid, AppError.RoomFull.toMessage)])) := by
  refine ⟨?_, ?_, ?_, ?_⟩
  · intro hnone
    have hu : client.has_username = false := by
      simp [Client.has_username, hnone]
    exact ⟨fun codes fuel => create_no_username s cid codes fuel client hc hu,
      fun raw => join_no_username s cid raw client hc hu⟩
  · intro rc hu hm
    exact ⟨fun codes fuel => create_already_in_room s cid codes fuel client rc hc hu hm,
      fun raw => join_already_in_room s cid raw client rc hc hu hm⟩
  · intro raw hu hm hroom
    exact join_not_found s cid raw client hc hu hm hroom
  · intro raw room hu hm hroom hfull
    exact join_full s cid raw client room hc hu hm hroom hfull

theorem claim_C3_witness :
    mapLookup (runCommands ChatServer.empty [ServerCommand.Connect 0]).clients 0
        = some (Client.new 0) ∧
      (Client.new 0).username = none ∧
      handle_join_room (runCommands ChatServer.empty [ServerCommand.Connect 0]) 0 cA
        = (runCommands ChatServer.empty [ServerCommand.Connect 0],
           [(0, AppError.UsernameRequired.toMessage)]) :=
  ⟨rfl, rfl,
    ((claim_C3_validation (runCommands ChatServer.empty [ServerCommand.Connect 0])
      0 (Client.new 0) rfl).1 rfl).2 cA⟩

/-- A delivered `Chat{from, ...}` event carries the sender's actual set
username whenever every room member has one: the `"Unknown"` fallback of
`display_name` is never the source of the `from` field. -/
theorem chat_from_username (s : ChatServer) (hN : NamesInv s)
    (cid : ClientId) (content : String) (t : ClientId) (nm body : String)
    (hev : (t, ServerMessage.Chat nm body) ∈ (handle_chat s cid content).2) :
    ∃ c, mapLookup s.clients cid = some c ∧ c.username = some nm := by
  rcases hcx : mapLookup s.clients cid with _ | client
  · simp [handle_chat, hcx] at hev
  · rcases hm : mapLookup s.client_rooms cid with _ | rc
    · rw [chat_not_in_room s cid content client hcx hm] at hev
      simp [AppError.toMessage] at hev
    · obtain ⟨c0, hc0, hu⟩ := hN cid rc hm
      obtain rfl : client = c0 := by
        rw [hcx] at hc0
        injection hc0
      obtain ⟨u, hu'⟩ := Option.isSome_iff_exists.mp hu
      have hdisp : client.display_name = u := by
        simp [Client.display_name, hu']
      rcases hroom : mapLookup s.rooms rc with _ | room
      · rw [chat_room_missing s cid content client rc hcx hm hroom] at hev
        simp at hev
      · rcases hpx : room.get_partner cid with _ | p
        · rw [chat_no_partner s cid content client rc room hcx hm hroom hpx] at hev
          simp at hev
        · rw [chat_partner_lookup s cid content client rc room p hcx hm hroom hpx]
            at hev
          rcases hlp : mapLookup (mapInsert s.clients cid (client.set_typing false)) p
              with _ | pc
          · simp [hlp] at hev
          · rw [hlp] at hev
            rcases ht : client.is_typing <;> simp [ht] at hev <;>
              obtain ⟨-, hnm, -⟩ := hev <;>
              exact ⟨client, rfl, by rw [hu', hnm, hdisp]⟩

/-- A delivered `PartnerJoined{username}` event carries the joiner's actual
set username: the empty-string fallback is never the source. -/
theorem join_partner_joined_username (s : ChatServer) (cid : ClientId)
    (raw : List Char) (t : ClientId) (nm : String)
    (hev : (t, ServerMessage.PartnerJoined nm) ∈ (handle_join_room s cid raw).2) :
    ∃ c, mapLookup s.clients cid = some c ∧ c.username = some nm := by
  rcases hcx : mapLookup s.clients cid with _ | client
  · simp [handle_join_room, hcx] at hev
  · rcases hu : client.has_username with _ | _
    · rw [join_no_username s cid raw client hcx hu] at hev
      simp [AppError.toMessage] at hev
    · rcases hm : mapLookup s.client_rooms cid with _ | rc0
      · rcases hroom : mapLookup s.rooms (RoomCode.from_string raw) with _ | room
        · rw [join_not_found s cid raw client hcx hu hm hroom] at hev
          simp [AppError.toMessage] at hev
        · rcases hfull : room.is_full with _ | _
          · rw [join_success s cid raw client room hcx hu hm hroom hfull] at hev
            obtain ⟨u, hu'⟩ := Option.isSome_iff_exists.mp
              (by simpa [Client.has_username] using hu)
            rcases hh : mapLookup s.clients room.host with _ | hostc <;>
              rw [hh] at hev <;> simp at hev
            obtain ⟨-, hnm⟩ := hev
            exact ⟨client, rfl, by simp [hnm, hu']⟩
          · rw [join_full s cid raw client room hcx hu hm hroom hfull] at hev
            simp [AppError.toMessage] at hev
      · rw [join_already_in_room s cid raw client rc0 hcx hu hm] at hev
        simp [AppError.toMessage] at hev

/-- C10: in every state reached with fresh `Connect` ids (which the
transport layer guarantees by minting a random UUID per connection), every
session occupying a room has its display name set; consequently a `Chat`
notification's `from` field and a `PartnerJoined` notification's
`username` field always equal the respective session's actual username —
the `"Unknown"` and empty-string fallbacks are never delivered. -/
theorem claim_C10_names (cmds : List ServerCommand)
    (hf : freshRun ChatServer.empty cmds) :
    (∀ cid rc,
        mapLookup (runCommands ChatServer.empty cmds).client_rooms cid = some rc →
        ∃ c, mapLookup (runCommands ChatServer.empty cmds).clients cid = some c
          ∧ ∃ u, c.username = some u)
    ∧ (∀ cid content t nm body,
        (t, ServerMessage.Chat nm body)
            ∈ (handle_chat (runCommands ChatServer.empty cmds) cid content).2 →
        ∃ c, mapLookup (runCommands ChatServer.empty cmds).clients cid = some c
          ∧ c.username = some nm)
    ∧ (∀ cid raw t nm,
        (t, ServerMessage.PartnerJoined nm)
            ∈ (handle_join_room (runCommands ChatServer.empty cmds) cid raw).2 →
        ∃ c, mapLookup (runCommands ChatServer.empty cmds).clients cid = some c
          ∧ c.username = some nm) := by
  have hN := NamesInv_reachable cmds hf
  refine ⟨?_, ?_, ?_⟩
  · intro cid rc hm
    obtain ⟨c, hc, hu⟩ := hN cid rc hm
    exact ⟨c, hc, Option.isSome_iff_exists.mp hu⟩
  · intro cid content t nm body hev
    exact chat_from_username _ hN cid content t nm body hev
  · intro cid raw t nm hev
    exact join_partner_joined_username _ cid raw t nm hev

theorem claim_C10_witness :
    freshRun ChatServer.empty demoCmds ∧
      ∃ c, mapLookup (runCommands ChatServer.empty demoCmds).clients 1 = some c
        ∧ ∃ u, c.username = some u := by
  have hf : freshRun ChatServer.empty demoCmds :=
    ⟨rfl, trivial, trivial, rfl, trivial, trivial, trivial⟩
  exact ⟨hf, (claim_C10_names demoCmds hf).1 1 cA rfl⟩

theorem claim_C8_witness :
    mapLookup demoState.rooms cA = some { code := cA, host := 0, guest := some 1 } ∧
      RoomCode.from_string (RoomCode.generate (fun _ : Nat => 'b'))
        = RoomCode.generate (fun _ : Nat => 'b') :=
  ⟨rfl, claim_C8_case_insensitive.2 (fun _ => 'b')
    (by intro i; show 'b' ∈ alphanumericChars; decide)⟩

end ChatSpec
